import Mathlib

/-!
# Slack DM → WhatsApp bridge: embedding of `slack-userdm-to-whatsapp.cjs`

The script keeps five module-level maps (watermarks, dedup set, name cache,
last-notification times, suppression records) and talks to three outside
parties: the Slack Web API, the WhatsApp Graph API and the wall clock.

Modelling conventions.

* JavaScript strings are `String`; a field that may be absent is the empty
  string, which JavaScript treats as falsy exactly like `undefined`.
* A Slack timestamp (`"1700000000.000100"`) is the natural number of
  microseconds it denotes; `Number(ts)` preserves that order.  The dedup key
  `channel + ":" + ts` is the pair `(channel, ts)`.
* Every interaction with the outside is an `Effect` pushed on a trace (most
  recent first).  The answer of the outside is a function of the trace so
  far (`World`), which covers every deterministic environment.
* `async`/`await` is sequential composition; a thrown `Error` is
  `Except.error` carrying `err.message`.
-/

namespace SlackBridge

/-! ## JavaScript string helpers -/

/-- Whether `sub` occurs in `cs` as a contiguous block. -/
def isInfixOfList (sub : List Char) : List Char → Bool
  | [] => sub.isEmpty
  | c :: cs => sub.isPrefixOf (c :: cs) || isInfixOfList sub cs

/-- JavaScript `s.includes(sub)`. -/
def includes (s sub : String) : Bool := isInfixOfList sub.data s.data

/-- JavaScript `s.startsWith(p)`. -/
def startsWith (s p : String) : Bool := p.data.isPrefixOf s.data

/-- First `n` UTF-16 code units of a character list: a character outside the
basic plane takes two units.  When the cut falls between the two units of such
a character, `String.prototype.slice` keeps the lone leading surrogate, which
a `Char` cannot hold; the character is dropped here, so on those inputs the
result is one unit shorter than the script's. -/
def sliceUnits : Nat → List Char → List Char
  | 0, _ => []
  | _, [] => []
  | n + 1, c :: cs =>
    if c.toNat < 65536 then c :: sliceUnits n cs
    else match n with
      | 0 => []
      | k + 1 => c :: sliceUnits k cs

/-- JavaScript `s.slice(0, n)`. -/
def jsSlice (s : String) (n : Nat) : String := String.mk (sliceUnits n s.data)

/-- White space and line terminators removed by JavaScript `trim`. -/
def isJsSpace (c : Char) : Bool :=
  let n := c.toNat
  n = 9 || n = 10 || n = 11 || n = 12 || n = 13 || n = 32 || n = 160 || n = 5760 ||
  (8192 ≤ n && n ≤ 8202) || n = 8232 || n = 8233 || n = 8239 || n = 8287 ||
  n = 12288 || n = 65279

/-- JavaScript `s.trim()`. -/
def jsTrim (s : String) : String :=
  String.mk ((s.data.dropWhile isJsSpace).reverse.dropWhile isJsSpace).reverse

/-! ## JSON values and `JSON.stringify` -/

mutual
/-- A parsed JSON value.  Numbers are exact integers, where `res.json()` yields
doubles (integers beyond 2^53 round, 1e21 and above print in exponent form),
and members keep their textual order, where JavaScript lists integer-like
keys first; for such bodies the serialised text can differ from the script's. -/
inductive Json where
  | null : Json
  | bool (b : Bool) : Json
  | num (n : Int) : Json
  | str (s : String) : Json
  | arr (xs : JsonList) : Json
  | obj (kvs : JsonFields) : Json
/-- Elements of a JSON array. -/
inductive JsonList where
  | nil : JsonList
  | cons (x : Json) (xs : JsonList) : JsonList
/-- Members of a JSON object, in insertion order. -/
inductive JsonFields where
  | nil : JsonFields
  | cons (k : String) (v : Json) (rest : JsonFields) : JsonFields
end

/-- Lower-case hexadecimal digit. -/
def hexDigit (n : Nat) : Char :=
  if n < 10 then Char.ofNat (48 + n) else Char.ofNat (87 + n)

/-- Escape of one character inside a JSON string literal. -/
def quoteChar (c : Char) : List Char :=
  if c = '"' then ['\\', '"']
  else if c = '\\' then ['\\', '\\']
  else if c.toNat = 8 then ['\\', 'b']
  else if c.toNat = 12 then ['\\', 'f']
  else if c = '\n' then ['\\', 'n']
  else if c = '\r' then ['\\', 'r']
  else if c = '\t' then ['\\', 't']
  else if c.toNat < 32 then ['\\', 'u', '0', '0', hexDigit (c.toNat / 16), hexDigit (c.toNat % 16)]
  else [c]

/-- JSON string literal for `s`. -/
def quote (s : String) : String :=
  "\"" ++ String.mk (s.data.flatMap quoteChar) ++ "\""

mutual
/-- JavaScript `JSON.stringify(v)`. -/
def stringify : Json → String
  | .null => "null"
  | .bool b => if b then "true" else "false"
  | .num n => toString n
  | .str s => quote s
  | .arr xs => "[" ++ stringifyList xs ++ "]"
  | .obj kvs => "\x7b" ++ stringifyFields kvs ++ "\x7d"
/-- Comma-separated elements of an array. -/
def stringifyList : JsonList → String
  | .nil => ""
  | .cons x .nil => stringify x
  | .cons x xs => stringify x ++ "," ++ stringifyList xs
/-- Comma-separated members of an object. -/
def stringifyFields : JsonFields → String
  | .nil => ""
  | .cons k v .nil => quote k ++ ":" ++ stringify v
  | .cons k v rest => quote k ++ ":" ++ stringify v ++ "," ++ stringifyFields rest
end

/-- Member `k` of an object's field list. -/
def JsonFields.get? : JsonFields → String → Option Json
  | .nil, _ => none
  | .cons k v rest, key => if k = key then some v else rest.get? key

/-- Property access `v[key]` on an object; `none` is `undefined`. -/
def Json.get? : Json → String → Option Json
  | .obj kvs, key => kvs.get? key
  | _, _ => none

/-! ## Data carried by the two platforms -/

/-- Attachment descriptor of a Slack message (`m.files[i]`). -/
structure SlackFile where
  id : String
  name : String
  mimetype : String
  url_private_download : String
  url_private : String
  permalink : String
  deriving DecidableEq, Repr

/-- Slack message as returned by `conversations.history`. -/
structure Message where
  ts : Nat
  user : String
  subtype : String
  text : String
  files : List SlackFile
  deriving DecidableEq, Repr

/-- The part of a `users.info` answer that `getUserName` reads. -/
structure UserInfo where
  real_name_normalized : String
  real_name : String
  name : String
  deriving DecidableEq, Repr

/-- Answer of a WhatsApp Graph API request: status line and parsed body. -/
structure HttpResponse where
  status : Nat
  data : Json

/-- The `ok` flag of a fetch response: status in the range 200–299. -/
def HttpResponse.ok (r : HttpResponse) : Bool := decide (200 ≤ r.status) && decide (r.status ≤ 299)

/-- Answer of an attachment download: status and body bytes. -/
structure Download where
  status : Nat
  bytes : List Nat

/-- The `ok` flag of a download response. -/
def Download.ok (r : Download) : Bool := decide (200 ≤ r.status) && decide (r.status ≤ 299)

/-- Interactions with the outside world, in the order the script makes them. -/
inductive Effect where
  | clock
  | sleep (ms : Nat)
  | log (line : String)
  | history (channel : String) (oldest : Nat)
  | usersInfo (user : String)
  | download (url : String)
  | waText (dest body : String)
  | waTemplate (dest : String)
  | waUpload (bytes : List Nat) (filename mime : String)
  | waImage (dest mediaId caption : String)
  | waDoc (dest mediaId filename caption : String)
  deriving DecidableEq, Repr

/-- Trace of effects, most recent first. -/
abbrev Trace := List Effect

/-- The environment: each answer is determined by the trace up to and
including the request it answers.  An `Except.error` is a rejected promise
(network failure, unparsable body) with its message. -/
structure World where
  clock : Trace → Nat
  http : Trace → Except String HttpResponse
  history : Trace → Except String (List Message)
  usersInfo : Trace → Except String UserInfo
  download : Trace → Except String Download
  tsToLocale : Nat → String

/-- Values read from the process environment at start-up. -/
structure Config where
  DEST_NUMBERS : List String
  FORWARD_OUTGOING : Bool
  COOLDOWN_MS : Int
  COOLDOWN_SUMMARY : Bool

/-! ## WhatsApp helpers (lines 32–116) -/

/-- Effects that put something on the wire towards the WhatsApp API. -/
def Effect.isWa : Effect → Bool
  | .waText _ _ => true
  | .waTemplate _ => true
  | .waUpload _ _ _ => true
  | .waImage _ _ _ => true
  | .waDoc _ _ _ _ => true
  | _ => false

/-- A Graph API POST (`/messages` or `/media`): issue the request `e`, throw
`label status: body` unless the response is ok, else return the parsed body. -/
def waPost (w : World) (label : String) (e : Effect) (tr : Trace) : Except String Json × Trace :=
  let tr1 := e :: tr
  match w.http tr1 with
  | .error msg => (.error msg, tr1)
  | .ok res =>
    if res.ok then (.ok res.data, tr1)
    else (.error (label ++ toString res.status ++ ": " ++ stringify res.data), tr1)

/-- Source `waSendText(to, body)`. -/
def waSendText (w : World) (dest body : String) (tr : Trace) : Except String Json × Trace :=
  waPost w "wa text failed " (.waText dest body) tr

/-- Rendering of `data.id` inside a later payload; `undefined` is dropped. -/
def mediaIdOf (data : Json) : String :=
  match data.get? "id" with
  | some v => stringify v
  | none => ""

/-- Source `waUploadMedia(bytes, filename, mime)`: returns `data.id`. -/
def waUploadMedia (w : World) (bytes : List Nat) (filename mime : String) (tr : Trace) :
    Except String String × Trace :=
  match waPost w "wa upload failed " (.waUpload bytes filename mime) tr with
  | (.error msg, tr1) => (.error msg, tr1)
  | (.ok .null, tr1) => (.error "Cannot read properties of null (reading 'id')", tr1)
  | (.ok data, tr1) => (.ok (mediaIdOf data), tr1)

/-- Source `waSendImage(to, mediaId, caption)`. -/
def waSendImage (w : World) (dest mediaId caption : String) (tr : Trace) : Except String Json × Trace :=
  waPost w "wa image failed " (.waImage dest mediaId caption) tr

/-- Source `waSendDoc(to, mediaId, filename, caption)`. -/
def waSendDoc (w : World) (dest mediaId filename caption : String) (tr : Trace) :
    Except String Json × Trace :=
  waPost w "wa doc failed " (.waDoc dest mediaId filename caption) tr

/-- Source `waSendTemplate(to)`. -/
def waSendTemplate (w : World) (dest : String) (tr : Trace) : Except String Json × Trace :=
  waPost w "wa template failed " (.waTemplate dest) tr

/-- The test of lines 92 and 108 on `String(err.message || '')`. -/
def isSessionExpired (s : String) : Bool := includes s "131051" || includes s "24"

/-- Handshake and pause of lines 93–94 / 109–110. -/
def handshake (w : World) (dest : String) (tr : Trace) : Except String Unit × Trace :=
  match waSendTemplate w dest tr with
  | (.error msg, tr1) => (.error msg, tr1)
  | (.ok _, tr1) => (.ok (), Effect.sleep 1200 :: tr1)

/-- Source `waSafeText(to, body)`. -/
def waSafeText (w : World) (dest body : String) (tr : Trace) : Except String Json × Trace :=
  match waSendText w dest body tr with
  | (.ok data, tr1) => (.ok data, tr1)
  | (.error err, tr1) =>
    if isSessionExpired err then
      match handshake w dest tr1 with
      | (.error msg, tr2) => (.error msg, tr2)
      | (.ok _, tr2) => waSendText w dest body tr2
    else (.error err, tr1)

/-- The image-or-document send of lines 104–105 and 111–112. -/
def waSendMedia (w : World) (dest mediaId caption filename mime : String) (tr : Trace) :
    Except String Json × Trace :=
  if startsWith mime "image/" then waSendImage w dest mediaId caption tr
  else waSendDoc w dest mediaId filename caption tr

/-- Source `waSafeMedia(to, header, bytes, filename, mime)`. -/
def waSafeMedia (w : World) (dest header : String) (bytes : List Nat) (filename mime : String)
    (tr : Trace) : Except String Json × Trace :=
  match waUploadMedia w bytes filename mime tr with
  | (.error msg, tr0) => (.error msg, tr0)
  | (.ok mediaId, tr0) =>
    let caption := jsSlice header 900
    match waSendMedia w dest mediaId caption filename mime tr0 with
    | (.ok data, tr1) => (.ok data, tr1)
    | (.error err, tr1) =>
      if isSessionExpired err then
        match handshake w dest tr1 with
        | (.error msg, tr2) => (.error msg, tr2)
        | (.ok _, tr2) => waSendMedia w dest mediaId caption filename mime tr2
      else (.error err, tr1)

/-! ## Module state (lines 119–126) -/

/-- Suppression record of one conversation (line 126). -/
structure Entry where
  count : Nat
  files : Nat
  firstTs : Nat
  lastTs : Nat
  lastSender : String
  lastPreview : String
  deriving DecidableEq, Repr

/-- The module-level maps other than the watermarks, with the effect trace.
`selfUserId` is the empty string while it is still `null`. -/
structure Store where
  seen : String → Nat → Bool
  userCache : String → Option String
  selfUserId : String
  lastNotifyAtByChannel : String → Option Nat
  suppressedByChannel : String → Option Entry
  trace : Trace

/-- Whole state: the watermark map `lastTsByChannel` in insertion order (keys
distinct, as in a JavaScript `Map`) and the rest. -/
structure State where
  lastTsByChannel : List (String × Nat)
  store : Store

/-- `Map.get` on the watermark map. -/
def getTs : List (String × Nat) → String → Option Nat
  | [], _ => none
  | (k, v) :: rest, c => if k = c then some v else getTs rest c

/-- `Map.set` on the watermark map: an existing key keeps its position. -/
def setTs : List (String × Nat) → String → Nat → List (String × Nat)
  | [], c, t => [(c, t)]
  | (k, v) :: rest, c, t => if k = c then (k, t) :: rest else (k, v) :: setTs rest c t

/-! ## Cooldown per conversation (lines 128–169) -/

/-- Source `withinCooldown(channel)`; reads the clock once. -/
def withinCooldown (w : World) (cfg : Config) (channel : String) (s : Store) : Bool × Store :=
  let last := (s.lastNotifyAtByChannel channel).getD 0
  let tr1 := Effect.clock :: s.trace
  (decide ((w.clock tr1 : Int) - (last : Int) < cfg.COOLDOWN_MS), { s with trace := tr1 })

/-- Source `recordSuppressed(channel, sender, preview, ts, filesCount)`. -/
def recordSuppressed (channel sender preview : String) (ts filesCount : Nat) (s : Store) : Store :=
  let entry := (s.suppressedByChannel channel).getD
    { count := 0, files := 0, firstTs := ts, lastTs := ts, lastSender := sender, lastPreview := preview }
  let entry1 : Entry :=
    { count := entry.count + 1
      files := entry.files + filesCount
      firstTs := entry.firstTs
      lastTs := ts
      lastSender := if sender ≠ "" then sender else entry.lastSender
      lastPreview := if preview ≠ "" then preview else entry.lastPreview }
  { s with suppressedByChannel := fun c => if c = channel then some entry1 else s.suppressedByChannel c }

/-- The digest text of lines 154–158. -/
def summaryBody (w : World) (entry : Entry) : String :=
  let fromStr := w.tsToLocale entry.firstTs
  let toStr := w.tsToLocale entry.lastTs
  let filesChunk := if entry.files ≠ 0 then ", " ++ toString entry.files ++ " anexo(s)" else ""
  let lastLine :=
    if entry.lastPreview ≠ "" then
      "\nÚltima: " ++ entry.lastSender ++ ": " ++ jsSlice entry.lastPreview 300
    else ""
  jsSlice ("🔔 Resumo Slack: " ++ toString entry.count ++ " nova(s) mensagem(ns)" ++ filesChunk ++
    " entre " ++ fromStr ++ " e " ++ toStr ++ "." ++ lastLine) 1000

/-- The fan-out loops of lines 161–164 and 259–262: try `waSafeText` at every
address, log a failure under `label`, remember whether any address succeeded. -/
def sendTextAll (w : World) (label body : String) : List String → Bool → Trace → Bool × Trace
  | [], anySuccess, tr => (anySuccess, tr)
  | dest :: rest, anySuccess, tr =>
    match waSafeText w dest body tr with
    | (.ok _, tr1) => sendTextAll w label body rest true tr1
    | (.error e, tr1) =>
      sendTextAll w label body rest anySuccess (Effect.log (label ++ " (" ++ dest ++ "): " ++ e) :: tr1)

/-- Lines 165–168, 263 and 289: on success stamp the conversation with
`Date.now()`, and drop the suppression record when `clear` is set. -/
def markDelivered (w : World) (channel : String) (clear : Bool) (tr : Trace) (s : Store) : Store :=
  let tr1 := Effect.clock :: tr
  { s with
    trace := tr1
    lastNotifyAtByChannel := fun c => if c = channel then some (w.clock tr1) else s.lastNotifyAtByChannel c
    suppressedByChannel := fun c => if clear && c = channel then none else s.suppressedByChannel c }

/-- Source `maybeSendCooldownSummary(channel)`. -/
def maybeSendCooldownSummary (w : World) (cfg : Config) (channel : String) (s : Store) : Store :=
  if !cfg.COOLDOWN_SUMMARY then s
  else match s.suppressedByChannel channel with
    | none => s
    | some entry =>
      let last := (s.lastNotifyAtByChannel channel).getD 0
      let tr1 := Effect.clock :: s.trace
      if (w.clock tr1 : Int) - (last : Int) < cfg.COOLDOWN_MS then { s with trace := tr1 }
      else
        let r := sendTextAll w "WA resumo falhou" (summaryBody w entry) cfg.DEST_NUMBERS false tr1
        if r.1 then markDelivered w channel true r.2 s else { s with trace := r.2 }

/-! ## Polling (lines 172–309) -/

/-- Source `getUserName(userId)`. -/
def getUserName (w : World) (userId : String) (s : Store) : String × Store :=
  match s.userCache userId with
  | some name => (name, s)
  | none =>
    let tr1 := Effect.usersInfo userId :: s.trace
    match w.usersInfo tr1 with
    | .error _ => (userId, { s with trace := tr1 })
    | .ok u =>
      let name :=
        if u.real_name_normalized ≠ "" then u.real_name_normalized
        else if u.real_name ≠ "" then u.real_name
        else if u.name ≠ "" then u.name
        else userId
      (name, { s with trace := tr1, userCache := fun k => if k = userId then some name else s.userCache k })

/-- Subtypes dropped at line 236. -/
def ignoredSubtypes : List String :=
  ["message_deleted", "message_changed", "channel_join", "channel_leave", "channel_topic",
   "channel_purpose", "channel_name", "bot_message"]

/-- Line 258: the text payload, header and preview cut to 1000 units. -/
def textBody (header preview : String) : String := jsSlice (header ++ "\n\n" ++ preview) 1000

/-- Lines 257–263: deliver the text of a message to every address. -/
def forwardText (w : World) (cfg : Config) (channel header preview : String) (s : Store) : Store :=
  let r := sendTextAll w "WA texto falhou" (textBody header preview) cfg.DEST_NUMBERS false s.trace
  if r.1 then markDelivered w channel false r.2 s else { s with trace := r.2 }

/-- The fan-out loop of lines 285–288, with `waSafeMedia`. -/
def sendMediaAll (w : World) (cap : String) (bytes : List Nat) (filename mime : String) :
    List String → Bool → Trace → Bool × Trace
  | [], anySuccess, tr => (anySuccess, tr)
  | dest :: rest, anySuccess, tr =>
    match waSafeMedia w dest cap bytes filename mime tr with
    | (.ok _, tr1) => sendMediaAll w cap bytes filename mime rest true tr1
    | (.error e, tr1) =>
      sendMediaAll w cap bytes filename mime rest anySuccess
        (Effect.log ("WA anexo falhou (" ++ dest ++ ":" ++ filename ++ "): " ++ e) :: tr1)

/-- Line 275: `f.url_private_download || f.url_private || f.permalink`. -/
def fileUrl (f : SlackFile) : String :=
  if f.url_private_download ≠ "" then f.url_private_download
  else if f.url_private ≠ "" then f.url_private
  else f.permalink

/-- Line 280: `f.mimetype || 'application/octet-stream'`. -/
def fileMime (f : SlackFile) : String :=
  if f.mimetype ≠ "" then f.mimetype else "application/octet-stream"

/-- Line 281: `f.name || ("slack-file-" + f.id)`. -/
def fileName (f : SlackFile) : String :=
  if f.name ≠ "" then f.name else "slack-file-" ++ f.id

/-- Line 282: header and preview, trimmed and cut to 900 units. -/
def mediaCaption (header preview : String) : String :=
  jsSlice (jsTrim (header ++ "\n\n" ++ preview)) 900

/-- Lines 274–292: download one attachment and deliver it to every address. -/
def forwardFile (w : World) (cfg : Config) (channel header preview : String) (f : SlackFile)
    (s : Store) : Store :=
  if fileUrl f = "" then s
  else
    let tr1 := Effect.download (fileUrl f) :: s.trace
    match w.download tr1 with
    | .error e => { s with trace := Effect.log ("Falha baixando anexo: " ++ e) :: tr1 }
    | .ok res =>
      if !res.ok then
        { s with trace := Effect.log ("Falha baixando anexo: download " ++ toString res.status) :: tr1 }
      else
        let r := sendMediaAll w (mediaCaption header preview) res.bytes (fileName f) (fileMime f)
          cfg.DEST_NUMBERS false tr1
        if r.1 then markDelivered w channel false r.2 s else { s with trace := r.2 }

/-- Lines 273–294: every attachment of the message in turn. -/
def forwardFiles (w : World) (cfg : Config) (channel header preview : String) :
    List SlackFile → Store → Store
  | [], s => s
  | f :: rest, s => forwardFiles w cfg channel header preview rest (forwardFile w cfg channel header preview f s)

/-- Line 246: the header line with sender and localized time. -/
def headerLine (w : World) (sender : String) (m : Message) : String :=
  "💬 Slack DM de " ++ sender ++ " — " ++ w.tsToLocale m.ts

/-- Lines 252–296: the text part and the attachment part of a message, each
suppressed or forwarded according to the one cooldown reading `inCooldown`.
The preview is `(m.text || '').trim()` (line 247). -/
def gateMessage (w : World) (cfg : Config) (channel sender : String) (m : Message)
    (inCooldown : Bool) (s : Store) : Store :=
  let s1 :=
    if jsTrim m.text ≠ "" then
      if inCooldown then recordSuppressed channel sender (jsTrim m.text) m.ts 0 s
      else forwardText w cfg channel (headerLine w sender m) (jsTrim m.text) s
    else s
  if m.files ≠ [] then
    if inCooldown then recordSuppressed channel sender (jsTrim m.text) m.ts m.files.length s1
    else forwardFiles w cfg channel (headerLine w sender m) (jsTrim m.text) m.files s1
  else s1

/-- Lines 249–296: read the cooldown once, then gate the message on it. -/
def cooldownGate (w : World) (cfg : Config) (channel sender : String) (m : Message) (s : Store) :
    Store :=
  gateMessage w cfg channel sender m (withinCooldown w cfg channel s).1
    (withinCooldown w cfg channel s).2

/-- Line 244: `m.user ? await getUserName(m.user) : 'alguém'`. -/
def lookupSender (w : World) (m : Message) (s : Store) : String × Store :=
  if m.user ≠ "" then getUserName w m.user s else ("alguém", s)

/-- Body of the loop of lines 229–299: returns the value assigned to
`newLast` and the new store. -/
def processMessage (w : World) (cfg : Config) (channel : String) (m : Message) (s : Store) :
    Nat × Store :=
  if s.seen channel m.ts then (m.ts, s)
  else
    let s1 : Store := { s with seen := fun c t => (c = channel && t = m.ts) || s.seen c t }
    if ignoredSubtypes.contains m.subtype then (m.ts, s1)
    else
      let isFromMe := m.user ≠ "" && m.user = s1.selfUserId
      if !cfg.FORWARD_OUTGOING && isFromMe then (m.ts, s1)
      else (m.ts, cooldownGate w cfg channel (lookupSender w m s1).1 m (lookupSender w m s1).2)

/-- The loop of lines 229–299 over the sorted batch. -/
def messageLoop (w : World) (cfg : Config) (channel : String) : List Message → Nat → Store → Nat × Store
  | [], newLast, s => (newLast, s)
  | m :: rest, _, s =>
    messageLoop w cfg channel rest (processMessage w cfg channel m s).1 (processMessage w cfg channel m s).2

/-- Line 226: stable sort, oldest first. -/
def sortByTs (messages : List Message) : List Message :=
  messages.insertionSort (fun a b => a.ts ≤ b.ts)

/-- Lines 217–307: one conversation within a tick.  A failed history fetch is
logged and leaves everything else as it was. -/
def pollChannel (w : World) (cfg : Config) (channel : String) (lastTs : Nat) (s : State) : State :=
  let tr1 := Effect.history channel lastTs :: s.store.trace
  match w.history tr1 with
  | .error e => { s with store := { s.store with trace := Effect.log ("poll error: " ++ e) :: tr1 } }
  | .ok messages =>
    let r := messageLoop w cfg channel (sortByTs messages) lastTs { s.store with trace := tr1 }
    let s3 := maybeSendCooldownSummary w cfg channel r.2
    if r.1 ≠ lastTs then { lastTsByChannel := setTs s.lastTsByChannel channel r.1, store := s3 }
    else { lastTsByChannel := s.lastTsByChannel, store := s3 }

/-- Source `pollOnce()`: every entry of the watermark map in turn. -/
def pollOnce (w : World) (cfg : Config) (s : State) : State :=
  s.lastTsByChannel.foldl (fun st e => pollChannel w cfg e.1 e.2 st) s

/-- Repeated ticks of the main loop (lines 314–317). -/
def ticks (w : World) (cfg : Config) : Nat → State → State
  | 0, s => s
  | n + 1, s => ticks w cfg n (pollOnce w cfg s)

/-! ## Observations used to state the properties -/

/-- The message of a thrown error, if the call threw. -/
def errorOf {α : Type} : Except String α → Option String
  | .error e => some e
  | .ok _ => none

/-- The request `waSendMedia` puts on the wire. -/
def mediaRequest (dest mediaId caption filename mime : String) : Effect :=
  if startsWith mime "image/" then .waImage dest mediaId caption
  else .waDoc dest mediaId filename caption

/-- Platform error code of an error body, `data.error.code`. -/
def errorCode (data : Json) : Option Int :=
  match data.get? "error" with
  | some e =>
    match e.get? "code" with
    | some (.num n) => some n
    | _ => none
  | none => none

/-- The session-expired condition in the specification's words: the error
response carries one of the two platform error codes `131051`, `24`. -/
def carriesSessionExpiredCode (r : HttpResponse) : Bool :=
  errorCode r.data == some 131051 || errorCode r.data == some 24

/-! ## Concrete environments -/

/-- An environment in which nothing happens: every WhatsApp request is
accepted, Slack has no messages, the clock advances one millisecond per effect. -/
def quietWorld : World :=
  { clock := (fun tr => 1700000000000 + tr.length)
    http := (fun _ => .ok { status := 200, data := .obj .nil })
    history := (fun _ => .ok [])
    usersInfo := (fun _ => .error "user_not_found")
    download := (fun _ => .error "fetch failed")
    tsToLocale := (fun t => toString t) }

/-- Error body `{"error":{"code":c}}`. -/
def errorBody (c : Int) : Json := .obj (.cons "error" (.obj (.cons "code" (.num c) .nil)) .nil)

/-- The first text send is rejected with code 131051 and the handshake
template is rejected too (code 132001, template missing). -/
def handshakeFailsWorld : World :=
  { quietWorld with
    http := (fun tr =>
      match tr with
      | Effect.waTemplate _ :: _ => .ok { status := 404, data := errorBody 132001 }
      | _ => .ok { status := 400, data := errorBody 131051 }) }

/-- The first text send is rejected with code 131051, the handshake is
accepted, the retry is rejected with another error (code 131000). -/
def retryFailsWorld : World :=
  { quietWorld with
    http := (fun tr =>
      match tr with
      | [Effect.waText _ _] => .ok { status := 400, data := errorBody 131051 }
      | Effect.waTemplate _ :: _ => .ok { status := 200, data := .obj .nil }
      | _ => .ok { status := 500, data := errorBody 131000 }) }

/-- An invalid-parameter answer (code 100) whose trace id happens to contain
the characters `24`. -/
def invalidParameter : HttpResponse :=
  { status := 400
    data := .obj (.cons "error" (.obj (.cons "message" (.str "(#100) Invalid parameter")
      (.cons "code" (.num 100) (.cons "fbtrace_id" (.str "AQx24Tz") .nil)))) .nil) }

/-- Every text send is answered with `invalidParameter`; templates are accepted. -/
def invalidParameterWorld : World :=
  { quietWorld with
    http := (fun tr =>
      match tr with
      | Effect.waTemplate _ :: _ => .ok { status := 200, data := .obj .nil }
      | _ => .ok invalidParameter) }

/-- Every text send is rejected with code 100 and nothing else in the body. -/
def plainRejectWorld : World :=
  { quietWorld with http := (fun _ => .ok { status := 400, data := errorBody 100 }) }

/-- Whether `waSafeText` succeeds at each address in turn, following the
fan-out loop (`sendTextAll`) through the same traces. -/
def textOutcomes (w : World) (label body : String) : List String → Trace → List Bool
  | [], _ => []
  | dest :: rest, tr =>
    match waSafeText w dest body tr with
    | (.ok _, tr1) => true :: textOutcomes w label body rest tr1
    | (.error e, tr1) =>
      false :: textOutcomes w label body rest (Effect.log (label ++ " (" ++ dest ++ "): " ++ e) :: tr1)

/-- A store with nothing seen, nothing cached, no suppression record, and
every conversation's cooldown expired (`lastNotifyAt = 0`, as after bootstrap). -/
def freshStore : Store :=
  { seen := (fun _ _ => false)
    userCache := (fun _ => none)
    selfUserId := "U0SELF"
    lastNotifyAtByChannel := (fun _ => some 0)
    suppressedByChannel := (fun _ => none)
    trace := [] }

/-- Three destination addresses, two-minute cooldown, summaries on. -/
def threeDests : Config :=
  { DEST_NUMBERS := ["5511999990001", "5511999990002", "5511999990003"]
    FORWARD_OUTGOING := false
    COOLDOWN_MS := 120000
    COOLDOWN_SUMMARY := true }

/-- Only the second of the three addresses accepts messages. -/
def oneOfThreeWorld : World :=
  { quietWorld with
    http := (fun tr =>
      match tr with
      | Effect.waText "5511999990002" _ :: _ => .ok { status := 200, data := .obj .nil }
      | _ => .ok { status := 500, data := errorBody 131000 }) }

/-- A suppression record of two messages and one attachment. -/
def pendingEntry : Entry :=
  { count := 2, files := 1, firstTs := 1700000000000100, lastTs := 1700000000000200,
    lastSender := "Ann", lastPreview := "oi" }

/-- The fresh store with `pendingEntry` waiting in conversation `D0CHAN`. -/
def pendingStore : Store :=
  { freshStore with
    suppressedByChannel := (fun c => if c = "D0CHAN" then some pendingEntry else none) }

/-- Value of `newLast` after the loop: the timestamp of the last message of
the batch, or the starting value for an empty batch. -/
def lastTsOr (nl : Nat) : List Message → Nat
  | [] => nl
  | m :: rest => lastTsOr m.ts rest

/-- One destination address, two-minute cooldown, summaries on. -/
def oneDest : Config :=
  { DEST_NUMBERS := ["5511999990001"]
    FORWARD_OUTGOING := false
    COOLDOWN_MS := 120000
    COOLDOWN_SUMMARY := true }

/-- A plain text message from user `U1ANN`. -/
def annMessage : Message :=
  { ts := 1700000000000100, user := "U1ANN", subtype := "", text := "oi", files := [] }

/-- Slack returns `annMessage` on every history fetch (an overlapping
window), `users.info` knows Ann, WhatsApp accepts everything, and the clock
jumps past the cooldown after the fourth effect. -/
def flushWorld : World :=
  { quietWorld with
    clock := (fun tr => if tr.length ≤ 4 then 1700000001000 else 1700000200000)
    history := (fun _ => .ok [annMessage])
    usersInfo := (fun _ => .ok { real_name_normalized := "", real_name := "Ann", name := "ann" }) }

/-- State right after a delivery in `D0CHAN` at time 1700000000000. -/
def coolingState : State :=
  { lastTsByChannel := [("D0CHAN", 1700000000000000)]
    store := { freshStore with
      lastNotifyAtByChannel := (fun c => if c = "D0CHAN" then some 1700000000000 else some 0) } }

/-- A bot-authored message. -/
def botMessage : Message :=
  { ts := 1700000000000300, user := "U2BOT", subtype := "bot_message", text := "ping", files := [] }

/-- The batches the exclusive history fetch can return without moving a
watermark backwards: empty, or with some timestamp not below `oldest`. -/
def RespectsOldest (w : World) : Prop :=
  ∀ tr channel oldest batch, w.history (Effect.history channel oldest :: tr) = .ok batch →
    batch = [] ∨ ∃ m ∈ batch, oldest ≤ m.ts

/-- A state whose watermark for `D0CHAN` lies after `annMessage`. -/
def aheadState : State :=
  { lastTsByChannel := [("D0CHAN", 1700000000000500)], store := freshStore }

/-- Slack answers every history fetch with one message from Ann, one
microsecond after the requested lower bound. -/
def advancingWorld : World :=
  { quietWorld with
    history := (fun tr =>
      match tr with
      | Effect.history _ oldest :: _ => .ok [{ annMessage with ts := oldest + 1 }]
      | _ => .ok [])
    usersInfo := (fun _ => .ok { real_name_normalized := "", real_name := "Ann", name := "ann" }) }

/-- A message from Ann with a caption and one picture, sent before `annMessage`. -/
def photoMessage : Message :=
  { ts := 1700000000000050, user := "U1ANN", subtype := "", text := "olha",
    files := [{ id := "F1", name := "foto.png", mimetype := "image/png",
                url_private_download := "https://files.slack.com/F1/download/foto.png",
                url_private := "", permalink := "" }] }

/-- Slack returns the picture message and then Ann's text; downloads work and
WhatsApp accepts every request, answering uploads with a media id. -/
def albumWorld : World :=
  { quietWorld with
    http := (fun _ => .ok { status := 200, data := .obj (.cons "id" (.str "M1") .nil) })
    history := (fun _ => .ok [photoMessage, annMessage])
    usersInfo := (fun _ => .ok { real_name_normalized := "", real_name := "Ann", name := "ann" })
    download := (fun _ => .ok { status := 200, bytes := [137, 80, 78, 71] }) }

/-- State right after bootstrap: watermark before both messages, cooldown expired. -/
def bootState : State :=
  { lastTsByChannel := [("D0CHAN", 1700000000000000)], store := freshStore }

/-- Ann's next text message. -/
def replyMessage : Message :=
  { ts := 1700000000000200, user := "U1ANN", subtype := "", text := "tudo bem?", files := [] }

/-- Whether a message reaches `recordSuppressed` while the cooldown runs: it
has non-empty text or at least one attachment. -/
def hasContent (m : Message) : Bool := decide (jsTrim m.text ≠ "") || decide (m.files ≠ [])

/-- Total number of attachments in a batch. -/
def attachmentCount (batch : List Message) : Nat := (batch.map (fun m => m.files.length)).sum

/-- The numeric part of a suppression record: count, files, firstTs, lastTs. -/
def Entry.stats (e : Entry) : Nat × Nat × Nat × Nat := (e.count, e.files, e.firstTs, e.lastTs)

/-- Effect of one `recordSuppressed` call on the numeric part of a record. -/
def bumpStats (cur : Option (Nat × Nat × Nat × Nat)) (ts n : Nat) : Nat × Nat × Nat × Nat :=
  match cur with
  | none => (1, n, ts, ts)
  | some (c, f, a, _) => (c + 1, f + n, a, ts)

/-- Effect on the numeric part of a record of gating one message inside the
cooldown: one call for its text, one for its attachments. -/
def statsStep (cur : Option (Nat × Nat × Nat × Nat)) (m : Message) :
    Option (Nat × Nat × Nat × Nat) :=
  if m.files ≠ [] then
    some (bumpStats (if jsTrim m.text ≠ "" then some (bumpStats cur m.ts 0) else cur) m.ts
      m.files.length)
  else if jsTrim m.text ≠ "" then some (bumpStats cur m.ts 0) else cur

/-- A message that the loop gates: unseen, not of an ignored subtype, not
dropped as self-authored. -/
def Gated (cfg : Config) (channel : String) (s : Store) (m : Message) : Prop :=
  s.seen channel m.ts = false ∧ m.subtype ∉ ignoredSubtypes ∧
    (cfg.FORWARD_OUTGOING = true ∨ m.user = "" ∨ m.user ≠ s.selfUserId)

/-- A picture from Bob without any text, sent after `annMessage`. -/
def bobFileMessage : Message :=
  { ts := 1700000000000200, user := "U3BOB", subtype := "", text := "",
    files := [{ id := "F2", name := "praia.jpg", mimetype := "image/jpeg",
                url_private_download := "https://files.slack.com/F2/download/praia.jpg",
                url_private := "", permalink := "" }] }

/-- The name directory: `U3BOB` is Bob, everybody else is Ann. -/
def directory (tr : Trace) : Except String UserInfo :=
  match tr with
  | Effect.usersInfo "U3BOB" :: _ => .ok { real_name_normalized := "", real_name := "Bob", name := "bob" }
  | _ => .ok { real_name_normalized := "", real_name := "Ann", name := "ann" }

/-- Slack returns only Bob's picture. -/
def fileOnlyWorld : World :=
  { quietWorld with history := (fun _ => .ok [bobFileMessage]), usersInfo := directory }

/-- Slack returns Ann's text followed by Bob's picture, all within one
second of the last delivery (the clock stands still at 1700000001000). -/
def burstWorld : World :=
  { quietWorld with
    clock := (fun _ => 1700000001000)
    history := (fun _ => .ok [annMessage, bobFileMessage])
    usersInfo := directory }

/-- The store with the key `(channel, ts)` added to the seen set (line 232). -/
def markSeen (channel : String) (ts : Nat) (s : Store) : Store :=
  { s with seen := fun c t => (c = channel && t = ts) || s.seen c t }

/-- Whether `waSafeMedia` succeeds at each address in turn following the loop `sendMediaAll` through the same traces. -/
def mediaOutcomes (w : World) (cap : String) (bytes : List Nat) (filename mime : String) :
    List String → Trace → List Bool
  | [], _ => []
  | dest :: rest, tr =>
    match waSafeMedia w dest cap bytes filename mime tr with
    | (.ok _, tr1) => true :: mediaOutcomes w cap bytes filename mime rest tr1
    | (.error e, tr1) =>
      false :: mediaOutcomes w cap bytes filename mime rest
        (Effect.log ("WA anexo falhou (" ++ dest ++ ":" ++ filename ++ "): " ++ e) :: tr1)

/-- `SuppressedRun w cfg channel ms s`: the store `s` has been reached from a
store without suppression record for the conversation by suppressing exactly
the messages `ms`, in order, each one gated by the loop body while its
cooldown reading said "running"; between them anything may have happened that
leaves the conversation's suppression record as it is (other conversations,
seen or discarded messages, fetches of later ticks, clock reads, a summary
that was not yet due or reached no address). -/
inductive SuppressedRun (w : World) (cfg : Config) (channel : String) :
    List Message → Store → Prop where
  | start {s : Store} (h : s.suppressedByChannel channel = none) : SuppressedRun w cfg channel [] s
  | suppress {ms : List Message} {s0 : Store} {m : Message}
      (hrun : SuppressedRun w cfg channel ms s0) (hg : Gated cfg channel s0 m)
      (hin : (withinCooldown w cfg channel (lookupSender w m (markSeen channel m.ts s0)).2).1 = true) :
      SuppressedRun w cfg channel (ms ++ [m]) (processMessage w cfg channel m s0).2
  | other {ms : List Message} {s s2 : Store}
      (hrun : SuppressedRun w cfg channel ms s)
      (h : s2.suppressedByChannel channel = s.suppressedByChannel channel) :
      SuppressedRun w cfg channel ms s2

/-- Slack returns Ann's text in the first tick and Bob's picture in the
second (the fetch is keyed on the watermark), nothing afterwards; the clock
stays inside the cooldown for the first eight effects and is past it from
then on. -/
def twoTickWorld : World :=
  { quietWorld with
    clock := (fun tr => if tr.length ≤ 8 then 1700000001000 else 1700000200000)
    history := (fun tr =>
      match tr with
      | Effect.history _ 1700000000000000 :: _ => .ok [annMessage]
      | Effect.history _ 1700000000000100 :: _ => .ok [bobFileMessage]
      | _ => .ok [])
    usersInfo := directory }

/-- The store in the third tick, after its (empty) history fetch and before
the end-of-tick flush. -/
def thirdTickStore : Store :=
  { (ticks twoTickWorld oneDest 2 coolingState).store with
    trace := Effect.history "D0CHAN" 1700000000000200
      :: (ticks twoTickWorld oneDest 2 coolingState).store.trace }

/-! # Properties -/

/-! ## Trace bookkeeping of the WhatsApp helpers -/

theorem waPost_trace (w : World) (label : String) (e : Effect) (tr : Trace) :
    (waPost w label e tr).2 = e :: tr := by
  simp only [waPost]
  split
  · rfl
  · split <;> rfl

theorem waSendText_trace (w : World) (dest body : String) (tr : Trace) :
    (waSendText w dest body tr).2 = Effect.waText dest body :: tr := waPost_trace _ _ _ _

theorem waSendTemplate_trace (w : World) (dest : String) (tr : Trace) :
    (waSendTemplate w dest tr).2 = Effect.waTemplate dest :: tr := waPost_trace _ _ _ _

theorem waSendMedia_trace (w : World) (dest mediaId caption filename mime : String) (tr : Trace) :
    (waSendMedia w dest mediaId caption filename mime tr).2
      = mediaRequest dest mediaId caption filename mime :: tr := by
  unfold waSendMedia mediaRequest waSendImage waSendDoc
  by_cases h : startsWith mime "image/" <;> simp [h, waPost_trace]

theorem waUploadMedia_trace (w : World) (bytes : List Nat) (filename mime : String) (tr : Trace) :
    (waUploadMedia w bytes filename mime tr).2 = Effect.waUpload bytes filename mime :: tr := by
  have h := waPost_trace w "wa upload failed " (Effect.waUpload bytes filename mime) tr
  unfold waUploadMedia
  split <;> simp_all

/-! ## Session-expiry recovery (`waSafeText`, `waSafeMedia`) -/

/-- C6, as the specification states it, fails when the handshake itself is
rejected: the first send fails with code 131051, the template send fails, and
`waSafeText` throws the template's error without any retry. -/
theorem handshake_failure_skips_retry :
    errorOf (waSendText handshakeFailsWorld "5511999990000" "oi" []).1
        = some "wa text failed 400: \x7b\"error\":\x7b\"code\":131051\x7d\x7d" ∧
      isSessionExpired "wa text failed 400: \x7b\"error\":\x7b\"code\":131051\x7d\x7d" = true ∧
      (waSafeText handshakeFailsWorld "5511999990000" "oi" []).2
        = [Effect.waTemplate "5511999990000", Effect.waText "5511999990000" "oi"] ∧
      errorOf (waSafeText handshakeFailsWorld "5511999990000" "oi" []).1
        = some "wa template failed 404: \x7b\"error\":\x7b\"code\":132001\x7d\x7d" := by
  decide

/-- C6 (amended): when the first send fails with a message that passes the
session-expired test, exactly one handshake template is sent.  If the
handshake is rejected its error is thrown and nothing is retried; if it is
accepted, the script pauses and repeats the original send exactly once, and
the outcome of `waSafeText` is the outcome of that retry (so a retry error,
not the first error, is what surfaces).  `waSafeMedia` behaves the same
after a single upload. -/
theorem session_expired_recovery (w : World) (dest : String) (tr : Trace) :
    (∀ body err, (waSendText w dest body tr).1 = .error err → isSessionExpired err = true →
      (∀ msg, (waSendTemplate w dest (Effect.waText dest body :: tr)).1 = .error msg →
        waSafeText w dest body tr
          = (.error msg, Effect.waTemplate dest :: Effect.waText dest body :: tr)) ∧
      (∀ d, (waSendTemplate w dest (Effect.waText dest body :: tr)).1 = .ok d →
        waSafeText w dest body tr
          = ((waSendText w dest body
                (Effect.sleep 1200 :: Effect.waTemplate dest :: Effect.waText dest body :: tr)).1,
             Effect.waText dest body :: Effect.sleep 1200 :: Effect.waTemplate dest ::
               Effect.waText dest body :: tr))) ∧
    (∀ header bytes filename mime mediaId err,
      (waUploadMedia w bytes filename mime tr).1 = .ok mediaId →
      (waSendMedia w dest mediaId (jsSlice header 900) filename mime
          (Effect.waUpload bytes filename mime :: tr)).1 = .error err →
      isSessionExpired err = true →
      (∀ msg, (waSendTemplate w dest (mediaRequest dest mediaId (jsSlice header 900) filename mime ::
                Effect.waUpload bytes filename mime :: tr)).1 = .error msg →
        waSafeMedia w dest header bytes filename mime tr
          = (.error msg, Effect.waTemplate dest ::
              mediaRequest dest mediaId (jsSlice header 900) filename mime ::
              Effect.waUpload bytes filename mime :: tr)) ∧
      (∀ d, (waSendTemplate w dest (mediaRequest dest mediaId (jsSlice header 900) filename mime ::
                Effect.waUpload bytes filename mime :: tr)).1 = .ok d →
        waSafeMedia w dest header bytes filename mime tr
          = ((waSendMedia w dest mediaId (jsSlice header 900) filename mime
                (Effect.sleep 1200 :: Effect.waTemplate dest ::
                  mediaRequest dest mediaId (jsSlice header 900) filename mime ::
                  Effect.waUpload bytes filename mime :: tr)).1,
             mediaRequest dest mediaId (jsSlice header 900) filename mime ::
               Effect.sleep 1200 :: Effect.waTemplate dest ::
               mediaRequest dest mediaId (jsSlice header 900) filename mime ::
               Effect.waUpload bytes filename mime :: tr))) := by
  constructor
  · intro body err h1 hexp
    have hs : waSendText w dest body tr = (.error err, Effect.waText dest body :: tr) :=
      Prod.ext h1 (waSendText_trace w dest body tr)
    constructor
    · intro msg hm
      have hq : waSendTemplate w dest (Effect.waText dest body :: tr)
          = (.error msg, Effect.waTemplate dest :: Effect.waText dest body :: tr) :=
        Prod.ext hm (waSendTemplate_trace _ _ _)
      simp only [waSafeText, handshake, hs, hexp, if_true, hq]
    · intro d hm
      have hq : waSendTemplate w dest (Effect.waText dest body :: tr)
          = (.ok d, Effect.waTemplate dest :: Effect.waText dest body :: tr) :=
        Prod.ext hm (waSendTemplate_trace _ _ _)
      simp only [waSafeText, handshake, hs, hexp, if_true, hq]
      exact Prod.ext rfl (waSendText_trace _ _ _ _)
  · intro header bytes filename mime mediaId err hu h1 hexp
    have hup : waUploadMedia w bytes filename mime tr
        = (.ok mediaId, Effect.waUpload bytes filename mime :: tr) :=
      Prod.ext hu (waUploadMedia_trace _ _ _ _ _)
    have hs : waSendMedia w dest mediaId (jsSlice header 900) filename mime
        (Effect.waUpload bytes filename mime :: tr)
        = (.error err, mediaRequest dest mediaId (jsSlice header 900) filename mime ::
            Effect.waUpload bytes filename mime :: tr) :=
      Prod.ext h1 (waSendMedia_trace _ _ _ _ _ _ _)
    constructor
    · intro msg hm
      have hq : waSendTemplate w dest (mediaRequest dest mediaId (jsSlice header 900) filename mime ::
            Effect.waUpload bytes filename mime :: tr)
          = (.error msg, Effect.waTemplate dest ::
              mediaRequest dest mediaId (jsSlice header 900) filename mime ::
              Effect.waUpload bytes filename mime :: tr) :=
        Prod.ext hm (waSendTemplate_trace _ _ _)
      simp only [waSafeMedia, handshake, hup, hs, hexp, if_true, hq]
    · intro d hm
      have hq : waSendTemplate w dest (mediaRequest dest mediaId (jsSlice header 900) filename mime ::
            Effect.waUpload bytes filename mime :: tr)
          = (.ok d, Effect.waTemplate dest ::
              mediaRequest dest mediaId (jsSlice header 900) filename mime ::
              Effect.waUpload bytes filename mime :: tr) :=
        Prod.ext hm (waSendTemplate_trace _ _ _)
      simp only [waSafeMedia, handshake, hup, hs, hexp, if_true, hq]
      exact Prod.ext rfl (waSendMedia_trace _ _ _ _ _ _ _)

/-- C6 witness: first send rejected with 131051, handshake accepted, retry
rejected with 131000; the retry's error is the one thrown, after the trace
text, template, pause, text. -/
theorem session_expired_recovery_witness :
    isSessionExpired "wa text failed 400: \x7b\"error\":\x7b\"code\":131051\x7d\x7d" = true ∧
      waSafeText retryFailsWorld "5511999990000" "oi" []
        = ((waSendText retryFailsWorld "5511999990000" "oi"
              [Effect.sleep 1200, Effect.waTemplate "5511999990000",
               Effect.waText "5511999990000" "oi"]).1,
           [Effect.waText "5511999990000" "oi", Effect.sleep 1200,
            Effect.waTemplate "5511999990000", Effect.waText "5511999990000" "oi"]) ∧
      errorOf (waSafeText retryFailsWorld "5511999990000" "oi" []).1
        = some "wa text failed 500: \x7b\"error\":\x7b\"code\":131000\x7d\x7d" :=
  ⟨by decide,
   ((session_expired_recovery retryFailsWorld "5511999990000" []).1 "oi"
      "wa text failed 400: \x7b\"error\":\x7b\"code\":131051\x7d\x7d" rfl (by decide)).2
      (.obj .nil) rfl,
   by decide⟩

/-- C7, as the specification states it, fails: the answer `invalidParameter`
carries error code 100, neither of the two session-expired codes, yet its
trace id contains `24`, so the handshake is sent and the send is retried. -/
theorem substring_24_triggers_handshake :
    invalidParameterWorld.http [Effect.waText "5511999990000" "oi"] = .ok invalidParameter ∧
      errorCode invalidParameter.data = some 100 ∧
      carriesSessionExpiredCode invalidParameter = false ∧
      (waSafeText invalidParameterWorld "5511999990000" "oi" []).2
        = [Effect.waText "5511999990000" "oi", Effect.sleep 1200,
           Effect.waTemplate "5511999990000", Effect.waText "5511999990000" "oi"] :=
  ⟨rfl, by decide, by decide, by decide⟩

/-- C7 (amended): when the first send fails with an error whose message (the
HTTP status followed by the serialised body) contains neither `131051` nor
`24`, no template is sent, nothing is retried and that error is thrown; the
same for `waSafeMedia` after its upload. -/
theorem other_failure_propagates (w : World) (dest : String) (tr : Trace) :
    (∀ body err, (waSendText w dest body tr).1 = .error err →
      includes err "131051" = false → includes err "24" = false →
      waSafeText w dest body tr = (.error err, Effect.waText dest body :: tr)) ∧
    (∀ header bytes filename mime mediaId err,
      (waUploadMedia w bytes filename mime tr).1 = .ok mediaId →
      (waSendMedia w dest mediaId (jsSlice header 900) filename mime
          (Effect.waUpload bytes filename mime :: tr)).1 = .error err →
      includes err "131051" = false → includes err "24" = false →
      waSafeMedia w dest header bytes filename mime tr
        = (.error err, mediaRequest dest mediaId (jsSlice header 900) filename mime ::
            Effect.waUpload bytes filename mime :: tr)) := by
  constructor
  · intro body err h1 ha hb
    have hs : waSendText w dest body tr = (.error err, Effect.waText dest body :: tr) :=
      Prod.ext h1 (waSendText_trace w dest body tr)
    simp [waSafeText, hs, isSessionExpired, ha, hb]
  · intro header bytes filename mime mediaId err hu h1 ha hb
    have hup : waUploadMedia w bytes filename mime tr
        = (.ok mediaId, Effect.waUpload bytes filename mime :: tr) :=
      Prod.ext hu (waUploadMedia_trace _ _ _ _ _)
    have hs : waSendMedia w dest mediaId (jsSlice header 900) filename mime
        (Effect.waUpload bytes filename mime :: tr)
        = (.error err, mediaRequest dest mediaId (jsSlice header 900) filename mime ::
            Effect.waUpload bytes filename mime :: tr) :=
      Prod.ext h1 (waSendMedia_trace _ _ _ _ _ _ _)
    simp [waSafeMedia, hup, hs, isSessionExpired, ha, hb]

/-- C7 witness: a rejection with code 100 and nothing else in the body is
thrown as it is, after the single send. -/
theorem other_failure_propagates_witness :
    includes "wa text failed 400: \x7b\"error\":\x7b\"code\":100\x7d\x7d" "131051" = false ∧
      includes "wa text failed 400: \x7b\"error\":\x7b\"code\":100\x7d\x7d" "24" = false ∧
      waSafeText plainRejectWorld "5511999990000" "oi" []
        = (.error "wa text failed 400: \x7b\"error\":\x7b\"code\":100\x7d\x7d",
           [Effect.waText "5511999990000" "oi"]) :=
  ⟨by decide, by decide,
   (other_failure_propagates plainRejectWorld "5511999990000" []).1 "oi"
     "wa text failed 400: \x7b\"error\":\x7b\"code\":100\x7d\x7d" rfl (by decide) (by decide)⟩

/-! ## Fan-out over the destination addresses -/

theorem textOutcomes_length (w : World) (label body : String) (dests : List String) (tr : Trace) :
    (textOutcomes w label body dests tr).length = dests.length := by
  induction dests generalizing tr with
  | nil => rfl
  | cons d rest ih =>
    simp only [textOutcomes]
    split <;> simp [ih]

theorem sendTextAll_fst (w : World) (label body : String) (dests : List String) (any : Bool)
    (tr : Trace) :
    (sendTextAll w label body dests any tr).1
      = (any || (textOutcomes w label body dests tr).any id) := by
  induction dests generalizing any tr with
  | nil => simp [sendTextAll, textOutcomes]
  | cons d rest ih =>
    simp only [sendTextAll, textOutcomes]
    split <;> simp [ih]

theorem waSafeText_trace (w : World) (dest body : String) (tr : Trace) :
    ∃ pre, (waSafeText w dest body tr).2 = pre ++ tr ∧ Effect.waText dest body ∈ pre := by
  have h1 := waSendText_trace w dest body tr
  unfold waSafeText handshake
  rcases hs : waSendText w dest body tr with ⟨r, t⟩
  rw [hs] at h1
  simp only at h1
  subst h1
  cases r with
  | ok d => exact ⟨[Effect.waText dest body], rfl, by simp⟩
  | error err =>
    by_cases hexp : isSessionExpired err = true
    · simp only [hexp, if_true]
      have h2 := waSendTemplate_trace w dest (Effect.waText dest body :: tr)
      rcases hq : waSendTemplate w dest (Effect.waText dest body :: tr) with ⟨r2, t2⟩
      rw [hq] at h2
      simp only at h2
      subst h2
      cases r2 with
      | error msg => exact ⟨[Effect.waTemplate dest, Effect.waText dest body], rfl, by simp⟩
      | ok d2 =>
        simp only
        rw [waSendText_trace]
        exact ⟨[Effect.waText dest body, Effect.sleep 1200, Effect.waTemplate dest,
          Effect.waText dest body], rfl, by simp⟩
    · simp only [hexp]
      exact ⟨[Effect.waText dest body], rfl, by simp⟩

theorem sendTextAll_trace (w : World) (label body : String) (dests : List String) (any : Bool)
    (tr : Trace) :
    ∃ pre, (sendTextAll w label body dests any tr).2 = pre ++ tr ∧
      ∀ d ∈ dests, Effect.waText d body ∈ pre := by
  induction dests generalizing any tr with
  | nil => exact ⟨[], rfl, by simp⟩
  | cons d rest ih =>
    obtain ⟨p1, hp1, hm1⟩ := waSafeText_trace w d body tr
    simp only [sendTextAll]
    rcases hs : waSafeText w d body tr with ⟨r, t⟩
    rw [hs] at hp1
    simp only at hp1
    subst hp1
    cases r with
    | ok dd =>
      simp only
      obtain ⟨p2, hp2, hm2⟩ := ih true (p1 ++ tr)
      refine ⟨p2 ++ p1, by rw [hp2]; simp, ?_⟩
      intro x hx
      rcases List.mem_cons.mp hx with rfl | hx
      · exact List.mem_append_right _ hm1
      · exact List.mem_append_left _ (hm2 x hx)
    | error e =>
      simp only
      obtain ⟨p2, hp2, hm2⟩ := ih any (Effect.log (label ++ " (" ++ d ++ "): " ++ e) :: (p1 ++ tr))
      refine ⟨p2 ++ (Effect.log (label ++ " (" ++ d ++ "): " ++ e) :: p1), by rw [hp2]; simp, ?_⟩
      intro x hx
      rcases List.mem_cons.mp hx with rfl | hx
      · exact List.mem_append_right _ (List.mem_cons_of_mem _ hm1)
      · exact List.mem_append_left _ (hm2 x hx)

/-- C8: the text fan-out of `pollOnce` (lines 257–263) sends the payload to
every configured address whatever happened at the earlier ones, records one
outcome per address, and stamps the conversation's last-notification time
with the clock exactly when some address succeeded; with no success the
last-notification map is untouched.  The function returns a store, never an
error: no per-address failure reaches the caller. -/
theorem fanout_partial_success (w : World) (cfg : Config) (channel header preview : String)
    (s : Store) :
    (∀ dest ∈ cfg.DEST_NUMBERS,
      Effect.waText dest (textBody header preview)
        ∈ (forwardText w cfg channel header preview s).trace) ∧
    (textOutcomes w "WA texto falhou" (textBody header preview) cfg.DEST_NUMBERS s.trace).length
      = cfg.DEST_NUMBERS.length ∧
    ((textOutcomes w "WA texto falhou" (textBody header preview) cfg.DEST_NUMBERS s.trace).any id
        = true →
      (forwardText w cfg channel header preview s).lastNotifyAtByChannel channel
        = some (w.clock (forwardText w cfg channel header preview s).trace)) ∧
    ((textOutcomes w "WA texto falhou" (textBody header preview) cfg.DEST_NUMBERS s.trace).any id
        = false →
      (forwardText w cfg channel header preview s).lastNotifyAtByChannel
        = s.lastNotifyAtByChannel) := by
  have hfst := sendTextAll_fst w "WA texto falhou" (textBody header preview) cfg.DEST_NUMBERS
    false s.trace
  obtain ⟨pre, hpre, hmem⟩ := sendTextAll_trace w "WA texto falhou" (textBody header preview)
    cfg.DEST_NUMBERS false s.trace
  refine ⟨?_, textOutcomes_length _ _ _ _ _, ?_, ?_⟩
  · intro dest hd
    simp only [forwardText]
    split
    · simp only [markDelivered, hpre]
      exact List.mem_cons_of_mem _ (List.mem_append_left _ (hmem dest hd))
    · simp only [hpre]
      exact List.mem_append_left _ (hmem dest hd)
  · intro hany
    rw [hany] at hfst
    simp [forwardText, hfst, markDelivered]
  · intro hany
    rw [hany] at hfst
    simp [forwardText, hfst]

/-- C8 witness: three addresses, only the second accepts; the delivery counts
for the cooldown. -/
theorem fanout_partial_success_witness :
    textOutcomes oneOfThreeWorld "WA texto falhou" (textBody "h" "oi") threeDests.DEST_NUMBERS
        freshStore.trace = [false, true, false] ∧
      (forwardText oneOfThreeWorld threeDests "D0CHAN" "h" "oi" freshStore).lastNotifyAtByChannel
          "D0CHAN"
        = some (oneOfThreeWorld.clock
            (forwardText oneOfThreeWorld threeDests "D0CHAN" "h" "oi" freshStore).trace) :=
  ⟨by decide,
   (fanout_partial_success oneOfThreeWorld threeDests "D0CHAN" "h" "oi" freshStore).2.2.1
     (by decide)⟩

/-! ## Summary flush -/

/-- C9: `maybeSendCooldownSummary` returns the store as it is when the
conversation has no suppression record; when the cooldown has not expired it
sends nothing to WhatsApp and leaves the suppression records and the
last-notification times unchanged.  When a record exists, summaries are
enabled and the cooldown has expired, the digest goes to every address; if
some address succeeded the record is deleted and the last-notification time
becomes the clock reading, and if none succeeded both maps are exactly as
before. -/
theorem summary_flush (w : World) (cfg : Config) (channel : String) (s : Store) :
    (s.suppressedByChannel channel = none → maybeSendCooldownSummary w cfg channel s = s) ∧
    ((w.clock (Effect.clock :: s.trace) : Int)
          - (((s.lastNotifyAtByChannel channel).getD 0 : Nat) : Int) < cfg.COOLDOWN_MS →
      (maybeSendCooldownSummary w cfg channel s).suppressedByChannel = s.suppressedByChannel ∧
      (maybeSendCooldownSummary w cfg channel s).lastNotifyAtByChannel = s.lastNotifyAtByChannel ∧
      (maybeSendCooldownSummary w cfg channel s).trace.filter Effect.isWa
        = s.trace.filter Effect.isWa) ∧
    (∀ entry, s.suppressedByChannel channel = some entry → cfg.COOLDOWN_SUMMARY = true →
      ¬ ((w.clock (Effect.clock :: s.trace) : Int)
          - (((s.lastNotifyAtByChannel channel).getD 0 : Nat) : Int) < cfg.COOLDOWN_MS) →
      (∀ dest ∈ cfg.DEST_NUMBERS,
        Effect.waText dest (summaryBody w entry) ∈ (maybeSendCooldownSummary w cfg channel s).trace) ∧
      ((textOutcomes w "WA resumo falhou" (summaryBody w entry) cfg.DEST_NUMBERS
          (Effect.clock :: s.trace)).any id = true →
        (maybeSendCooldownSummary w cfg channel s).suppressedByChannel channel = none ∧
        (maybeSendCooldownSummary w cfg channel s).lastNotifyAtByChannel channel
          = some (w.clock (maybeSendCooldownSummary w cfg channel s).trace)) ∧
      ((textOutcomes w "WA resumo falhou" (summaryBody w entry) cfg.DEST_NUMBERS
          (Effect.clock :: s.trace)).any id = false →
        (maybeSendCooldownSummary w cfg channel s).suppressedByChannel = s.suppressedByChannel ∧
        (maybeSendCooldownSummary w cfg channel s).lastNotifyAtByChannel
          = s.lastNotifyAtByChannel)) := by
  refine ⟨?_, ?_, ?_⟩
  · intro hnone
    simp [maybeSendCooldownSummary, hnone]
  · intro hlt
    unfold maybeSendCooldownSummary
    by_cases hc : cfg.COOLDOWN_SUMMARY = true
    · cases he : s.suppressedByChannel channel with
      | none => simp [hc]
      | some entry => simp [hc, hlt, Effect.isWa]
    · simp [hc]
  · intro entry he hc hge
    have hfst := sendTextAll_fst w "WA resumo falhou" (summaryBody w entry) cfg.DEST_NUMBERS
      false (Effect.clock :: s.trace)
    obtain ⟨pre, hpre, hmem⟩ := sendTextAll_trace w "WA resumo falhou" (summaryBody w entry)
      cfg.DEST_NUMBERS false (Effect.clock :: s.trace)
    refine ⟨?_, ?_, ?_⟩
    · intro dest hd
      simp only [maybeSendCooldownSummary, hc, he, hge]
      simp only [Bool.not_true, Bool.false_eq_true, if_false]
      split
      · simp only [markDelivered, hpre]
        exact List.mem_cons_of_mem _ (List.mem_append_left _ (hmem dest hd))
      · simp only [hpre]
        exact List.mem_append_left _ (hmem dest hd)
    · intro hany
      rw [hany] at hfst
      simp [maybeSendCooldownSummary, hc, he, hge, hfst, markDelivered]
    · intro hany
      rw [hany] at hfst
      simp [maybeSendCooldownSummary, hc, he, hge, hfst]

/-- C9 witness: a pending record, an expired cooldown and one accepting
address out of three: the record is cleared and the time stamped. -/
theorem summary_flush_witness :
    pendingStore.suppressedByChannel "D0CHAN" = some pendingEntry ∧
      (maybeSendCooldownSummary oneOfThreeWorld threeDests "D0CHAN" pendingStore).suppressedByChannel
          "D0CHAN" = none ∧
      (maybeSendCooldownSummary oneOfThreeWorld threeDests "D0CHAN"
          pendingStore).lastNotifyAtByChannel "D0CHAN"
        = some (oneOfThreeWorld.clock
            (maybeSendCooldownSummary oneOfThreeWorld threeDests "D0CHAN" pendingStore).trace) :=
  ⟨rfl,
   ((summary_flush oneOfThreeWorld threeDests "D0CHAN" pendingStore).2.2 pendingEntry rfl rfl
      (by decide)).2.1 (by decide)⟩

/-! ## The dedup set and discarded messages -/

theorem getUserName_seen (w : World) (u : String) (s : Store) :
    (getUserName w u s).2.seen = s.seen := by
  simp only [getUserName]
  split
  · rfl
  · split <;> rfl

theorem forwardText_seen (w : World) (cfg : Config) (channel header preview : String) (s : Store) :
    (forwardText w cfg channel header preview s).seen = s.seen := by
  simp only [forwardText]
  split <;> rfl

theorem forwardFile_seen (w : World) (cfg : Config) (channel header preview : String)
    (f : SlackFile) (s : Store) :
    (forwardFile w cfg channel header preview f s).seen = s.seen := by
  simp only [forwardFile]
  split
  · rfl
  · split
    · rfl
    · split
      · rfl
      · split <;> rfl

theorem forwardFiles_seen (w : World) (cfg : Config) (channel header preview : String)
    (fs : List SlackFile) (s : Store) :
    (forwardFiles w cfg channel header preview fs s).seen = s.seen := by
  induction fs generalizing s with
  | nil => rfl
  | cons f rest ih => simp only [forwardFiles, ih, forwardFile_seen]

theorem gateMessage_seen (w : World) (cfg : Config) (channel sender : String)
    (m : Message) (inCooldown : Bool) (s : Store) :
    (gateMessage w cfg channel sender m inCooldown s).seen = s.seen := by
  simp only [gateMessage]
  split_ifs <;> simp [recordSuppressed, forwardText_seen, forwardFiles_seen]

theorem lookupSender_seen (w : World) (m : Message) (s : Store) :
    (lookupSender w m s).2.seen = s.seen := by
  simp only [lookupSender]
  split
  · exact getUserName_seen _ _ _
  · rfl

theorem cooldownGate_seen (w : World) (cfg : Config) (channel sender : String)
    (m : Message) (s : Store) :
    (cooldownGate w cfg channel sender m s).seen = s.seen := by
  simp only [cooldownGate, gateMessage_seen, withinCooldown]

theorem processMessage_fst (w : World) (cfg : Config) (channel : String) (m : Message) (s : Store) :
    (processMessage w cfg channel m s).1 = m.ts := by
  simp only [processMessage]
  split_ifs <;> rfl

theorem processMessage_seen (w : World) (cfg : Config) (channel : String) (m : Message)
    (s : Store) (c : String) (t : Nat) :
    (processMessage w cfg channel m s).2.seen c t
      = ((c = channel && t = m.ts) || s.seen c t) := by
  simp only [processMessage]
  split_ifs with h1 h2 h3
  · by_cases hc : c = channel ∧ t = m.ts
    · obtain ⟨rfl, rfl⟩ := hc
      simp [h1]
    · have : (decide (c = channel) && decide (t = m.ts)) = false := by
        simpa using hc
      simp [this]
  · rfl
  · rfl
  · simp [cooldownGate_seen, lookupSender_seen]

theorem messageLoop_seen (w : World) (cfg : Config) (channel : String) (msgs : List Message)
    (nl : Nat) (s : Store) (c : String) (t : Nat) :
    (messageLoop w cfg channel msgs nl s).2.seen c t
      = ((c = channel && msgs.any (fun m => t = m.ts)) || s.seen c t) := by
  induction msgs generalizing nl s with
  | nil => simp [messageLoop]
  | cons m rest ih =>
    simp only [messageLoop, ih, processMessage_seen, List.any_cons]
    cases decide (c = channel) <;> cases s.seen c t <;> simp [Bool.or_comm]
    
theorem processMessage_of_seen (w : World) (cfg : Config) (channel : String) (m : Message)
    (s : Store) (h : s.seen channel m.ts = true) :
    processMessage w cfg channel m s = (m.ts, s) := by
  simp [processMessage, h]

theorem messageLoop_fst (w : World) (cfg : Config) (channel : String) (msgs : List Message)
    (nl : Nat) (s : Store) :
    (messageLoop w cfg channel msgs nl s).1 = lastTsOr nl msgs := by
  induction msgs generalizing nl s with
  | nil => rfl
  | cons m rest ih => simp only [messageLoop, ih, lastTsOr, processMessage_fst]

theorem messageLoop_of_seen (w : World) (cfg : Config) (channel : String) (msgs : List Message)
    (nl : Nat) (s : Store) (h : ∀ m ∈ msgs, s.seen channel m.ts = true) :
    messageLoop w cfg channel msgs nl s = (lastTsOr nl msgs, s) := by
  induction msgs generalizing nl with
  | nil => rfl
  | cons m rest ih =>
    have hm := processMessage_of_seen w cfg channel m s (h m (List.mem_cons_self _ _))
    simp only [messageLoop, hm, lastTsOr]
    exact ih _ (fun x hx => h x (List.mem_cons_of_mem _ hx))

theorem processMessage_of_discard (w : World) (cfg : Config) (channel : String) (m : Message)
    (s : Store) (hs : s.seen channel m.ts = false)
    (h : m.subtype ∈ ignoredSubtypes ∨
      (cfg.FORWARD_OUTGOING = false ∧ m.user ≠ "" ∧ m.user = s.selfUserId)) :
    processMessage w cfg channel m s
      = (m.ts, { s with seen := fun c t => (c = channel && t = m.ts) || s.seen c t }) := by
  by_cases hi : m.subtype ∈ ignoredSubtypes
  · simp [processMessage, hs, hi]
  · rcases h with h | ⟨h1, h2, h3⟩
    · exact absurd h hi
    · have hcond : (!cfg.FORWARD_OUTGOING && (decide (m.user ≠ "") && decide (m.user = s.selfUserId)))
          = true := by
        rw [h1, decide_eq_true h2, decide_eq_true h3]
        rfl
      simp only [processMessage, hs, hi, hcond]
      simp

theorem mem_sortByTs (m : Message) (messages : List Message) :
    m ∈ sortByTs messages ↔ m ∈ messages :=
  (List.perm_insertionSort _ messages).mem_iff

/-- C5: a message with an ignored subtype, or written by the monitored user
while `FORWARD_OUTGOING` is off, leaves the effect trace untouched (nothing
is sent anywhere), leaves the suppression records and last-notification
times untouched, is marked in the seen set, and sets `newLast` to its
timestamp. -/
theorem discard_filtering (w : World) (cfg : Config) (channel : String) (m : Message) (s : Store)
    (h : m.subtype ∈ ignoredSubtypes ∨
      (cfg.FORWARD_OUTGOING = false ∧ m.user ≠ "" ∧ m.user = s.selfUserId)) :
    (processMessage w cfg channel m s).1 = m.ts ∧
    (processMessage w cfg channel m s).2.trace = s.trace ∧
    (processMessage w cfg channel m s).2.suppressedByChannel = s.suppressedByChannel ∧
    (processMessage w cfg channel m s).2.lastNotifyAtByChannel = s.lastNotifyAtByChannel ∧
    (processMessage w cfg channel m s).2.seen channel m.ts = true := by
  refine ⟨processMessage_fst _ _ _ _ _, ?_, ?_, ?_, ?_⟩
  · cases hs : s.seen channel m.ts with
    | true => rw [processMessage_of_seen _ _ _ _ _ hs]
    | false => rw [processMessage_of_discard _ _ _ _ _ hs h]
  · cases hs : s.seen channel m.ts with
    | true => rw [processMessage_of_seen _ _ _ _ _ hs]
    | false => rw [processMessage_of_discard _ _ _ _ _ hs h]
  · cases hs : s.seen channel m.ts with
    | true => rw [processMessage_of_seen _ _ _ _ _ hs]
    | false => rw [processMessage_of_discard _ _ _ _ _ hs h]
  · simp [processMessage_seen]

/-- C5 witness: a bot message is dropped without a trace. -/
theorem discard_filtering_witness :
    botMessage.subtype ∈ ignoredSubtypes ∧
      (processMessage quietWorld oneDest "D0CHAN" botMessage freshStore).1 = botMessage.ts ∧
      (processMessage quietWorld oneDest "D0CHAN" botMessage freshStore).2.trace = [] ∧
      (processMessage quietWorld oneDest "D0CHAN" botMessage freshStore).2.seen "D0CHAN"
          botMessage.ts = true :=
  ⟨by decide,
   (discard_filtering quietWorld oneDest "D0CHAN" botMessage freshStore (Or.inl (by decide))).1,
   (discard_filtering quietWorld oneDest "D0CHAN" botMessage freshStore (Or.inl (by decide))).2.1,
   (discard_filtering quietWorld oneDest "D0CHAN" botMessage freshStore
      (Or.inl (by decide))).2.2.2.2⟩

/-! ## Watermarks -/

theorem getTs_setTs (l : List (String × Nat)) (c : String) (t : Nat) (c2 : String) :
    getTs (setTs l c t) c2 = if c2 = c then some t else getTs l c2 := by
  induction l with
  | nil =>
    simp only [setTs, getTs]
    by_cases h : c = c2
    · simp [h]
    · have h2 : ¬ c2 = c := fun e => h e.symm
      simp [h, h2]
  | cons e rest ih =>
    obtain ⟨k, v⟩ := e
    simp only [setTs]
    by_cases hk : k = c
    · subst hk
      simp only [if_true, getTs]
      by_cases h : k = c2
      · simp [h]
      · have h2 : ¬ c2 = k := fun e => h e.symm
        simp [h, h2]
    · simp only [hk, if_false, getTs, ih]
      by_cases h : k = c2
      · subst h
        simp [hk]
      · simp [h]

theorem mem_keys_of_getTs (l : List (String × Nat)) (c : String) (v : Nat)
    (h : getTs l c = some v) : c ∈ l.map Prod.fst := by
  induction l with
  | nil => simp [getTs] at h
  | cons e rest ih =>
    obtain ⟨k, v2⟩ := e
    simp only [getTs] at h
    by_cases hk : k = c
    · simp [hk]
    · simp only [hk, if_false] at h
      simp [ih h]

theorem keys_setTs (l : List (String × Nat)) (c : String) (t : Nat)
    (h : c ∈ l.map Prod.fst) : (setTs l c t).map Prod.fst = l.map Prod.fst := by
  induction l with
  | nil => simp at h
  | cons e rest ih =>
    obtain ⟨k, v⟩ := e
    simp only [setTs]
    by_cases hk : k = c
    · simp [hk]
    · simp only [hk, if_false, List.map_cons, List.cons.injEq, true_and]
      apply ih
      simp only [List.map_cons, List.mem_cons] at h
      rcases h with h | h
      · exact absurd h.symm hk
      · exact h

theorem getTs_of_mem (l : List (String × Nat)) (hnd : (l.map Prod.fst).Nodup)
    (e : String × Nat) (he : e ∈ l) : getTs l e.1 = some e.2 := by
  induction l with
  | nil => simp at he
  | cons x rest ih =>
    obtain ⟨k, v⟩ := x
    simp only [List.map_cons, List.nodup_cons] at hnd
    rcases List.mem_cons.mp he with h | h
    · subst h
      simp [getTs]
    · have hne : ¬ k = e.1 := by
        intro hk
        apply hnd.1
        rw [hk]
        exact List.mem_map_of_mem _ h
      simp only [getTs, hne, if_false]
      exact ih hnd.2 h

theorem le_lastTsOr (l : List Message) (nl : Nat)
    (hs : l.Sorted (fun a b => a.ts ≤ b.ts)) (hle : ∀ x ∈ l, nl ≤ x.ts) :
    nl ≤ lastTsOr nl l ∧ ∀ x ∈ l, x.ts ≤ lastTsOr nl l := by
  induction l generalizing nl with
  | nil => simp [lastTsOr]
  | cons m rest ih =>
    have hs2 := List.sorted_cons.mp hs
    obtain ⟨h1, h2⟩ := ih m.ts hs2.2 (fun x hx => hs2.1 x hx)
    simp only [lastTsOr]
    refine ⟨le_trans (hle m (List.mem_cons_self _ _)) h1, ?_⟩
    intro x hx
    rcases List.mem_cons.mp hx with rfl | hx
    · exact h1
    · exact h2 x hx

theorem mem_le_lastTsOr (l : List Message) (nl : Nat)
    (hs : l.Sorted (fun a b => a.ts ≤ b.ts)) : ∀ x ∈ l, x.ts ≤ lastTsOr nl l := by
  cases l with
  | nil => simp
  | cons m rest =>
    have hs2 := List.sorted_cons.mp hs
    obtain ⟨h1, h2⟩ := le_lastTsOr rest m.ts hs2.2 (fun x hx => hs2.1 x hx)
    intro x hx
    simp only [lastTsOr]
    rcases List.mem_cons.mp hx with rfl | hx
    · exact h1
    · exact h2 x hx

theorem sortByTs_sorted (messages : List Message) :
    (sortByTs messages).Sorted (fun a b => a.ts ≤ b.ts) := by
  have : IsTotal Message (fun a b => a.ts ≤ b.ts) := ⟨fun a b => Nat.le_total a.ts b.ts⟩
  have : IsTrans Message (fun a b => a.ts ≤ b.ts) := ⟨fun a b c h1 h2 => Nat.le_trans h1 h2⟩
  exact List.sorted_insertionSort _ messages

theorem pollChannel_marks (w : World) (cfg : Config) (hw : RespectsOldest w) (channel : String)
    (lastTs : Nat) (s : State) :
    (pollChannel w cfg channel lastTs s).lastTsByChannel = s.lastTsByChannel ∨
    ∃ t, lastTs ≤ t ∧
      (pollChannel w cfg channel lastTs s).lastTsByChannel = setTs s.lastTsByChannel channel t := by
  simp only [pollChannel]
  cases hb : w.history (Effect.history channel lastTs :: s.store.trace) with
  | error e => exact Or.inl rfl
  | ok batch =>
    simp only [messageLoop_fst]
    split
    · right
      refine ⟨_, ?_, rfl⟩
      rcases hw _ _ _ _ hb with h | ⟨m, hm, hle⟩
      · subst h
        simp [sortByTs, lastTsOr]
      · exact le_trans hle (mem_le_lastTsOr _ _ (sortByTs_sorted batch) m
          ((mem_sortByTs m batch).mpr hm))
    · exact Or.inl rfl

theorem pollChannel_keys (w : World) (cfg : Config) (hw : RespectsOldest w) (channel : String)
    (lastTs : Nat) (s : State) (hc : channel ∈ s.lastTsByChannel.map Prod.fst) :
    (pollChannel w cfg channel lastTs s).lastTsByChannel.map Prod.fst
      = s.lastTsByChannel.map Prod.fst := by
  rcases pollChannel_marks w cfg hw channel lastTs s with h | ⟨t, _, h⟩
  · rw [h]
  · rw [h, keys_setTs _ _ _ hc]

theorem foldl_pollChannel (w : World) (cfg : Config) (hw : RespectsOldest w)
    (entries : List (String × Nat)) (st : State)
    (hnd : (entries.map Prod.fst).Nodup)
    (hcur : ∀ e ∈ entries, getTs st.lastTsByChannel e.1 = some e.2) :
    ((entries.foldl (fun acc e => pollChannel w cfg e.1 e.2 acc) st).lastTsByChannel.map Prod.fst
        = st.lastTsByChannel.map Prod.fst) ∧
    ∀ c t, getTs st.lastTsByChannel c = some t →
      ∃ t2, getTs (entries.foldl (fun acc e => pollChannel w cfg e.1 e.2 acc) st).lastTsByChannel c
          = some t2 ∧ t ≤ t2 := by
  induction entries generalizing st with
  | nil => exact ⟨rfl, fun c t h => ⟨t, h, le_refl t⟩⟩
  | cons e rest ih =>
    simp only [List.map_cons, List.nodup_cons] at hnd
    have hhead := hcur e (List.mem_cons_self _ _)
    have hkey := mem_keys_of_getTs _ _ _ hhead
    have hstep := pollChannel_marks w cfg hw e.1 e.2 st
    have hother : ∀ c, c ≠ e.1 →
        getTs (pollChannel w cfg e.1 e.2 st).lastTsByChannel c = getTs st.lastTsByChannel c := by
      intro c hc
      rcases hstep with h | ⟨t, _, h⟩
      · rw [h]
      · rw [h, getTs_setTs, if_neg hc]
    have hcur2 : ∀ x ∈ rest, getTs (pollChannel w cfg e.1 e.2 st).lastTsByChannel x.1 = some x.2 := by
      intro x hx
      have hne : x.1 ≠ e.1 := by
        intro heq
        apply hnd.1
        rw [← heq]
        exact List.mem_map_of_mem _ hx
      rw [hother x.1 hne]
      exact hcur x (List.mem_cons_of_mem _ hx)
    obtain ⟨ihk, ihv⟩ := ih (pollChannel w cfg e.1 e.2 st) hnd.2 hcur2
    simp only [List.foldl_cons]
    refine ⟨by rw [ihk, pollChannel_keys w cfg hw e.1 e.2 st hkey], ?_⟩
    intro c t hct
    by_cases hc : c = e.1
    · subst hc
      have ht : t = e.2 := by
        rw [hhead] at hct
        exact (Option.some.inj hct).symm
      rcases hstep with h | ⟨t1, hle, h⟩
      · obtain ⟨t2, h2, hle2⟩ := ihv e.1 t (by rw [h]; exact hct)
        exact ⟨t2, h2, hle2⟩
      · obtain ⟨t2, h2, hle2⟩ := ihv e.1 t1 (by rw [h, getTs_setTs, if_pos rfl])
        exact ⟨t2, h2, le_trans (ht ▸ hle) hle2⟩
    · obtain ⟨t2, h2, hle2⟩ := ihv c t (by rw [hother c hc]; exact hct)
      exact ⟨t2, h2, hle2⟩

theorem pollOnce_marks (w : World) (cfg : Config) (hw : RespectsOldest w) (s : State)
    (hnd : (s.lastTsByChannel.map Prod.fst).Nodup) :
    ((pollOnce w cfg s).lastTsByChannel.map Prod.fst = s.lastTsByChannel.map Prod.fst) ∧
    ∀ c t, getTs s.lastTsByChannel c = some t →
      ∃ t2, getTs (pollOnce w cfg s).lastTsByChannel c = some t2 ∧ t ≤ t2 :=
  foldl_pollChannel w cfg hw s.lastTsByChannel s hnd (fun e he => getTs_of_mem _ hnd e he)

/-- C1, as the specification states it, fails: with the watermark at
…500 and a fetched batch holding only Ann's message at …100, `pollOnce`
writes …100 into `lastTsByChannel`, below the value before the tick. -/
theorem watermark_moves_back :
    getTs aheadState.lastTsByChannel "D0CHAN" = some 1700000000000500 ∧
      flushWorld.history (Effect.history "D0CHAN" 1700000000000500 :: aheadState.store.trace)
        = .ok [annMessage] ∧
      annMessage.ts = 1700000000000100 ∧
      getTs (pollOnce flushWorld oneDest aheadState).lastTsByChannel "D0CHAN"
        = some 1700000000000100 :=
  ⟨by decide, rfl, rfl, by decide⟩

/-- C1 (amended): if every batch the history fetch returns is empty or holds
a timestamp not below the `oldest` it was asked for (as the exclusive fetch
from the watermark does), then after any number of ticks every conversation
still has a watermark and it is at least its value before. -/
theorem watermark_monotone (w : World) (cfg : Config) (hw : RespectsOldest w) (s : State)
    (hnd : (s.lastTsByChannel.map Prod.fst).Nodup) (n : Nat) (channel : String) (t : Nat)
    (h : getTs s.lastTsByChannel channel = some t) :
    ∃ t2, getTs (ticks w cfg n s).lastTsByChannel channel = some t2 ∧ t ≤ t2 := by
  induction n generalizing s t with
  | zero => exact ⟨t, h, le_refl t⟩
  | succ k ih =>
    obtain ⟨hk, hv⟩ := pollOnce_marks w cfg hw s hnd
    obtain ⟨t1, h1, hle1⟩ := hv channel t h
    obtain ⟨t2, h2, hle2⟩ := ih (pollOnce w cfg s) (by rw [hk]; exact hnd) t1 h1
    exact ⟨t2, h2, le_trans hle1 hle2⟩

/-- C1 witness: Slack always answers with one message just above the
requested lower bound; after two ticks the watermark has not gone down. -/
theorem watermark_monotone_witness :
    RespectsOldest advancingWorld ∧
      ∃ t2, getTs (ticks advancingWorld oneDest 2 coolingState).lastTsByChannel "D0CHAN" = some t2 ∧
        1700000000000000 ≤ t2 :=
  have hw : RespectsOldest advancingWorld := fun _ _ oldest batch hb =>
    Or.inr ⟨{ annMessage with ts := oldest + 1 },
      by
        simp only [advancingWorld, Except.ok.injEq] at hb
        rw [← hb]
        exact List.mem_singleton.mpr rfl,
      Nat.le_succ _⟩
  ⟨hw, watermark_monotone advancingWorld oneDest hw coolingState (by decide) 2 "D0CHAN"
    1700000000000000 (by decide)⟩

/-! ## The cooldown gate -/

theorem cooldownGate_text_expired (w : World) (cfg : Config) (channel sender : String)
    (m : Message) (s : Store) (ht : jsTrim m.text ≠ "") (hf : m.files = [])
    (hexp : ¬ ((w.clock (Effect.clock :: s.trace) : Int)
        - (((s.lastNotifyAtByChannel channel).getD 0 : Nat) : Int) < cfg.COOLDOWN_MS)) :
    cooldownGate w cfg channel sender m s
      = forwardText w cfg channel (headerLine w sender m) (jsTrim m.text)
          { s with trace := Effect.clock :: s.trace } := by
  simp [cooldownGate, withinCooldown, gateMessage, ht, hf, hexp]

theorem forwardText_trace (w : World) (cfg : Config) (channel header preview : String)
    (s : Store) :
    ∀ dest ∈ cfg.DEST_NUMBERS,
      Effect.waText dest (textBody header preview) ∈ (forwardText w cfg channel header preview s).trace := by
  obtain ⟨pre, hpre, hmem⟩ := sendTextAll_trace w "WA texto falhou" (textBody header preview)
    cfg.DEST_NUMBERS false s.trace
  intro dest hd
  simp only [forwardText]
  split
  · simp only [markDelivered, hpre]
    exact List.mem_cons_of_mem _ (List.mem_append_left _ (hmem dest hd))
  · simp only [hpre]
    exact List.mem_append_left _ (hmem dest hd)

theorem forwardText_suppressed (w : World) (cfg : Config) (channel header preview : String)
    (s : Store) :
    (forwardText w cfg channel header preview s).suppressedByChannel = s.suppressedByChannel := by
  simp only [forwardText]
  split
  · simp [markDelivered]
  · rfl

/-- C3, as the specification states it, fails for a message with text and
an attachment: with the cooldown expired and every send accepted, the picture
message alone produces two deliveries a few milliseconds apart (its text and
its picture, both gated by the one cooldown reading taken before the text was
sent), and Ann's following text is suppressed. -/
theorem text_and_picture_both_delivered :
    (pollOnce albumWorld oneDest bootState).store.trace.filter Effect.isWa
        = [Effect.waImage "5511999990001" "\"M1\""
             "💬 Slack DM de Ann — 1700000000000050\n\nolha",
           Effect.waUpload [137, 80, 78, 71] "foto.png" "image/png",
           Effect.waText "5511999990001" "💬 Slack DM de Ann — 1700000000000050\n\nolha"] ∧
      (pollOnce albumWorld oneDest bootState).store.suppressedByChannel "D0CHAN"
        = some { count := 1, files := 0, firstTs := 1700000000000100,
                 lastTs := 1700000000000100, lastSender := "Ann", lastPreview := "oi" } := by
  decide

/-! ## Suppression records -/

theorem statsStep_of_empty (cur : Option (Nat × Nat × Nat × Nat)) (m : Message)
    (h : hasContent m = false) : statsStep cur m = cur := by
  simp only [hasContent, Bool.or_eq_false_iff, decide_eq_false_iff_not, not_not] at h
  simp [statsStep, h.1, h.2]

theorem statsStep_of_content (cur : Option (Nat × Nat × Nat × Nat)) (m : Message)
    (h : hasContent m = true) (hx : jsTrim m.text = "" ∨ m.files = []) :
    statsStep cur m = some (bumpStats cur m.ts m.files.length) := by
  rcases hx with hx | hx
  · have hf : m.files ≠ [] := by
      intro hf
      simp [hasContent, hx, hf] at h
    simp [statsStep, hx, hf]
  · have ht : jsTrim m.text ≠ "" := by
      intro ht
      simp [hasContent, hx, ht] at h
    simp [statsStep, hx, ht]

theorem foldl_statsStep_some (batch : List Message) (c f a l : Nat)
    (hx : ∀ m ∈ batch, jsTrim m.text = "" ∨ m.files = []) :
    batch.foldl statsStep (some (c, f, a, l))
      = some (c + (batch.filter hasContent).length, f + attachmentCount batch, a,
          (((batch.filter hasContent).getLast?).map (fun m => m.ts)).getD l) := by
  induction batch generalizing c f l with
  | nil => simp [attachmentCount]
  | cons m rest ih =>
    have hx2 : ∀ x ∈ rest, jsTrim x.text = "" ∨ x.files = [] :=
      fun x h => hx x (List.mem_cons_of_mem _ h)
    cases hc : hasContent m with
    | false =>
      have hf : m.files = [] := by
        simp only [hasContent, Bool.or_eq_false_iff, decide_eq_false_iff_not, not_not] at hc
        exact hc.2
      rw [List.foldl_cons, statsStep_of_empty _ _ hc, ih c f l hx2]
      simp [List.filter_cons, hc, attachmentCount, hf]
    | true =>
      rw [List.foldl_cons, statsStep_of_content _ _ hc (hx m (List.mem_cons_self _ _))]
      simp only [bumpStats]
      rw [ih _ _ _ hx2]
      simp only [List.filter_cons, hc, if_true, List.length_cons, attachmentCount, List.map_cons,
        List.sum_cons, List.getLast?_cons]
      refine congrArg some (Prod.ext ?_ (Prod.ext ?_ (Prod.ext rfl ?_)))
      · show c + 1 + _ = c + (_ + 1)
        omega
      · show f + m.files.length + _ = f + (m.files.length + _)
        omega
      · cases (List.filter hasContent rest).getLast? <;> rfl

theorem foldl_statsStep_none (batch : List Message)
    (hx : ∀ m ∈ batch, jsTrim m.text = "" ∨ m.files = []) :
    batch.foldl statsStep none
      = ((batch.filter hasContent).head?).map (fun h =>
          ((batch.filter hasContent).length, attachmentCount batch, h.ts,
            (((batch.filter hasContent).getLast?).map (fun m => m.ts)).getD h.ts)) := by
  induction batch with
  | nil => rfl
  | cons m rest ih =>
    have hx2 : ∀ x ∈ rest, jsTrim x.text = "" ∨ x.files = [] :=
      fun x h => hx x (List.mem_cons_of_mem _ h)
    cases hc : hasContent m with
    | false =>
      have hf : m.files = [] := by
        simp only [hasContent, Bool.or_eq_false_iff, decide_eq_false_iff_not, not_not] at hc
        exact hc.2
      rw [List.foldl_cons, statsStep_of_empty _ _ hc, ih hx2]
      simp [List.filter_cons, hc, attachmentCount, hf]
    | true =>
      rw [List.foldl_cons, statsStep_of_content _ _ hc (hx m (List.mem_cons_self _ _))]
      simp only [bumpStats]
      rw [foldl_statsStep_some _ _ _ _ _ hx2]
      simp only [List.filter_cons, hc, if_true, List.length_cons, attachmentCount, List.map_cons,
        List.sum_cons, List.getLast?_cons, List.head?_cons, Option.map_some']
      refine congrArg some (Prod.ext ?_ (Prod.ext ?_ (Prod.ext rfl ?_)))
      · show 1 + _ = _ + 1
        omega
      · show m.files.length + _ = m.files.length + _
        rfl
      · cases (List.filter hasContent rest).getLast? <;> rfl

theorem recordSuppressed_stats (channel sender preview : String) (ts n : Nat) (s : Store) :
    ((recordSuppressed channel sender preview ts n s).suppressedByChannel channel).map Entry.stats
      = some (bumpStats ((s.suppressedByChannel channel).map Entry.stats) ts n) := by
  cases h : s.suppressedByChannel channel <;> simp [recordSuppressed, h, bumpStats, Entry.stats]

theorem gateMessage_within_stats (w : World) (cfg : Config) (channel sender : String)
    (m : Message) (s : Store) :
    ((gateMessage w cfg channel sender m true s).suppressedByChannel channel).map Entry.stats
      = statsStep ((s.suppressedByChannel channel).map Entry.stats) m := by
  simp only [gateMessage, statsStep, if_true]
  split_ifs <;> simp only [recordSuppressed_stats]

theorem gateMessage_within_frame (w : World) (cfg : Config) (channel sender : String)
    (m : Message) (s : Store) :
    (gateMessage w cfg channel sender m true s).lastNotifyAtByChannel = s.lastNotifyAtByChannel ∧
    (gateMessage w cfg channel sender m true s).selfUserId = s.selfUserId := by
  simp only [gateMessage, if_true]
  split_ifs <;> simp [recordSuppressed]

theorem lookupSender_frame (w : World) (m : Message) (s : Store) :
    (lookupSender w m s).2.lastNotifyAtByChannel = s.lastNotifyAtByChannel ∧
    (lookupSender w m s).2.selfUserId = s.selfUserId ∧
    (lookupSender w m s).2.suppressedByChannel = s.suppressedByChannel := by
  simp only [lookupSender, getUserName]
  split
  · split
    · exact ⟨rfl, rfl, rfl⟩
    · split <;> exact ⟨rfl, rfl, rfl⟩
  · exact ⟨rfl, rfl, rfl⟩

theorem processMessage_of_gated (w : World) (cfg : Config) (channel : String) (m : Message)
    (s : Store) (h : Gated cfg channel s m) :
    (processMessage w cfg channel m s).2
      = cooldownGate w cfg channel
          (lookupSender w m { s with seen := fun c t => (c = channel && t = m.ts) || s.seen c t }).1 m
          (lookupSender w m { s with seen := fun c t => (c = channel && t = m.ts) || s.seen c t }).2 := by
  obtain ⟨h1, h2, h3⟩ := h
  have hcond : (!cfg.FORWARD_OUTGOING && (decide (m.user ≠ "") && decide (m.user = s.selfUserId)))
      = false := by
    rcases h3 with h3 | h3 | h3
    · simp [h3]
    · simp [h3]
    · simp [h3]
  simp only [processMessage, h1, hcond]
  simp [h2]

theorem maybeSendCooldownSummary_trace (w : World) (cfg : Config) (channel : String) (s : Store)
    (entry : Entry) (he : s.suppressedByChannel channel = some entry)
    (hc : cfg.COOLDOWN_SUMMARY = true)
    (hge : ¬ ((w.clock (Effect.clock :: s.trace) : Int)
        - (((s.lastNotifyAtByChannel channel).getD 0 : Nat) : Int) < cfg.COOLDOWN_MS)) :
    ∀ dest ∈ cfg.DEST_NUMBERS,
      Effect.waText dest (summaryBody w entry) ∈ (maybeSendCooldownSummary w cfg channel s).trace := by
  obtain ⟨pre, hpre, hmem⟩ := sendTextAll_trace w "WA resumo falhou" (summaryBody w entry)
    cfg.DEST_NUMBERS false (Effect.clock :: s.trace)
  intro dest hd
  simp only [maybeSendCooldownSummary, hc, he, hge]
  simp only [Bool.not_true, Bool.false_eq_true, if_false]
  split
  · simp only [markDelivered, hpre]
    exact List.mem_cons_of_mem _ (List.mem_append_left _ (hmem dest hd))
  · simp only [hpre]
    exact List.mem_append_left _ (hmem dest hd)

/-- C4, as the specification states it, fails: a single suppressed message
without text and with one attachment contains no message with non-empty text
(N = 0), yet the record counts one message and the digest says so. -/
theorem attachment_only_counts_as_message :
    ([bobFileMessage].filter (fun m => decide (jsTrim m.text ≠ ""))).length = 0 ∧
      (pollOnce fileOnlyWorld oneDest coolingState).store.suppressedByChannel "D0CHAN"
        = some { count := 1, files := 1, firstTs := 1700000000000200,
                 lastTs := 1700000000000200, lastSender := "Bob", lastPreview := "" } ∧
      summaryBody fileOnlyWorld
          { count := 1, files := 1, firstTs := 1700000000000200,
            lastTs := 1700000000000200, lastSender := "Bob", lastPreview := "" }
        = "🔔 Resumo Slack: 1 nova(s) mensagem(ns), 1 anexo(s) entre 1700000000000200 e 1700000000000200." := by
  decide

/-- C10 at the failing input: inside the cooldown Ann writes "oi" and then
Bob sends a picture without text.  The record keeps Ann's preview under
Bob's name, and the digest's last line reads `Última: Bob: oi`. -/
theorem stale_preview_under_new_sender :
    (pollOnce burstWorld oneDest coolingState).store.suppressedByChannel "D0CHAN"
        = some { count := 2, files := 1, firstTs := 1700000000000100,
                 lastTs := 1700000000000200, lastSender := "Bob", lastPreview := "oi" } ∧
      summaryBody burstWorld
          { count := 2, files := 1, firstTs := 1700000000000100,
            lastTs := 1700000000000200, lastSender := "Bob", lastPreview := "oi" }
        = "🔔 Resumo Slack: 2 nova(s) mensagem(ns), 1 anexo(s) entre 1700000000000100 e 1700000000000200.\nÚltima: Bob: oi" := by
  decide

/-! ## The gate for any message -/

theorem cooldownGate_within (w : World) (cfg : Config) (channel sender : String)
    (m : Message) (s : Store)
    (hin : (w.clock (Effect.clock :: s.trace) : Int)
        - (((s.lastNotifyAtByChannel channel).getD 0 : Nat) : Int) < cfg.COOLDOWN_MS) :
    cooldownGate w cfg channel sender m s
      = gateMessage w cfg channel sender m true { s with trace := Effect.clock :: s.trace } := by
  simp [cooldownGate, withinCooldown, hin]

theorem cooldownGate_expired (w : World) (cfg : Config) (channel sender : String)
    (m : Message) (s : Store)
    (hexp : ¬ ((w.clock (Effect.clock :: s.trace) : Int)
        - (((s.lastNotifyAtByChannel channel).getD 0 : Nat) : Int) < cfg.COOLDOWN_MS)) :
    cooldownGate w cfg channel sender m s
      = gateMessage w cfg channel sender m false { s with trace := Effect.clock :: s.trace } := by
  simp [cooldownGate, withinCooldown, hexp]

theorem gateMessage_within_trace (w : World) (cfg : Config) (channel sender : String)
    (m : Message) (s : Store) :
    (gateMessage w cfg channel sender m true s).trace = s.trace := by
  simp only [gateMessage, if_true]
  split_ifs <;> simp [recordSuppressed]

theorem statsStep_lastTs (cur : Option (Nat × Nat × Nat × Nat)) (m : Message)
    (h : hasContent m = true) : ∃ c f a, statsStep cur m = some (c, f, a, m.ts) := by
  simp only [statsStep]
  split_ifs with h1 h2 h2
  · cases cur with
    | none => exact ⟨_, _, _, rfl⟩
    | some p => obtain ⟨c, f, a, l⟩ := p; exact ⟨_, _, _, rfl⟩
  · cases cur with
    | none => exact ⟨_, _, _, rfl⟩
    | some p => obtain ⟨c, f, a, l⟩ := p; exact ⟨_, _, _, rfl⟩
  · cases cur with
    | none => exact ⟨_, _, _, rfl⟩
    | some p => obtain ⟨c, f, a, l⟩ := p; exact ⟨_, _, _, rfl⟩
  · simp [hasContent, h1, h2] at h

theorem sendMediaAll_fst (w : World) (cap : String) (bytes : List Nat) (filename mime : String)
    (dests : List String) (any : Bool) (tr : Trace) :
    (sendMediaAll w cap bytes filename mime dests any tr).1
      = (any || (mediaOutcomes w cap bytes filename mime dests tr).any id) := by
  induction dests generalizing any tr with
  | nil => simp [sendMediaAll, mediaOutcomes]
  | cons d rest ih =>
    simp only [sendMediaAll, mediaOutcomes]
    split <;> simp [ih]

theorem waSafeMedia_suffix (w : World) (dest header : String) (bytes : List Nat)
    (filename mime : String) (tr : Trace) :
    ∃ pre, (waSafeMedia w dest header bytes filename mime tr).2 = pre ++ tr := by
  have hu := waUploadMedia_trace w bytes filename mime tr
  unfold waSafeMedia handshake
  rcases hup : waUploadMedia w bytes filename mime tr with ⟨r, t⟩
  rw [hup] at hu
  simp only at hu
  subst hu
  cases r with
  | error msg => exact ⟨[_], rfl⟩
  | ok mediaId =>
    simp only
    have h1 := waSendMedia_trace w dest mediaId (jsSlice header 900) filename mime
      (Effect.waUpload bytes filename mime :: tr)
    rcases hs : waSendMedia w dest mediaId (jsSlice header 900) filename mime
      (Effect.waUpload bytes filename mime :: tr) with ⟨r1, t1⟩
    rw [hs] at h1
    simp only at h1
    subst h1
    cases r1 with
    | ok d => exact ⟨[_, _], rfl⟩
    | error err =>
      by_cases hexp : isSessionExpired err = true
      · simp only [hexp, if_true]
        have h2 := waSendTemplate_trace w dest
          (mediaRequest dest mediaId (jsSlice header 900) filename mime ::
            Effect.waUpload bytes filename mime :: tr)
        rcases hq : waSendTemplate w dest
          (mediaRequest dest mediaId (jsSlice header 900) filename mime ::
            Effect.waUpload bytes filename mime :: tr) with ⟨r2, t2⟩
        rw [hq] at h2
        simp only at h2
        subst h2
        cases r2 with
        | error msg => exact ⟨[_, _, _], rfl⟩
        | ok d2 =>
          simp only
          rw [waSendMedia_trace]
          exact ⟨[_, _, _, _, _], rfl⟩
      · simp only [hexp]
        exact ⟨[_, _], rfl⟩

theorem sendMediaAll_suffix (w : World) (cap : String) (bytes : List Nat) (filename mime : String)
    (dests : List String) (any : Bool) (tr : Trace) :
    ∃ pre, (sendMediaAll w cap bytes filename mime dests any tr).2 = pre ++ tr := by
  induction dests generalizing any tr with
  | nil => exact ⟨[], rfl⟩
  | cons d rest ih =>
    obtain ⟨p1, hp1⟩ := waSafeMedia_suffix w d cap bytes filename mime tr
    simp only [sendMediaAll]
    rcases hs : waSafeMedia w d cap bytes filename mime tr with ⟨r, t⟩
    rw [hs] at hp1
    simp only at hp1
    subst hp1
    cases r with
    | ok dd =>
      simp only
      obtain ⟨p2, hp2⟩ := ih true (p1 ++ tr)
      exact ⟨p2 ++ p1, by rw [hp2]; simp⟩
    | error e =>
      simp only
      obtain ⟨p2, hp2⟩ := ih any
        (Effect.log ("WA anexo falhou (" ++ d ++ ":" ++ filename ++ "): " ++ e) :: (p1 ++ tr))
      exact ⟨p2 ++ (Effect.log ("WA anexo falhou (" ++ d ++ ":" ++ filename ++ "): " ++ e) :: p1),
        by rw [hp2]; simp⟩

theorem forwardFile_suffix (w : World) (cfg : Config) (channel header preview : String)
    (f : SlackFile) (s : Store) :
    ∃ pre, (forwardFile w cfg channel header preview f s).trace = pre ++ s.trace ∧
      (fileUrl f ≠ "" → Effect.download (fileUrl f) ∈ pre) := by
  simp only [forwardFile]
  split
  · rename_i h
    exact ⟨[], rfl, fun hne => absurd h hne⟩
  · split
    · exact ⟨[_, _], rfl, fun _ => by simp⟩
    · split
      · exact ⟨[_, _], rfl, fun _ => by simp⟩
      · rename_i res _ _
        obtain ⟨p, hp⟩ := sendMediaAll_suffix w (mediaCaption header preview) res.bytes (fileName f)
          (fileMime f) cfg.DEST_NUMBERS false (Effect.download (fileUrl f) :: s.trace)
        split
        · refine ⟨Effect.clock :: (p ++ [Effect.download (fileUrl f)]), ?_, fun _ => by simp⟩
          simp [markDelivered, hp]
        · refine ⟨p ++ [Effect.download (fileUrl f)], ?_, fun _ => by simp⟩
          simp [hp]

theorem forwardFiles_suffix (w : World) (cfg : Config) (channel header preview : String)
    (fs : List SlackFile) (s : Store) :
    ∃ pre, (forwardFiles w cfg channel header preview fs s).trace = pre ++ s.trace ∧
      ∀ f ∈ fs, fileUrl f ≠ "" → Effect.download (fileUrl f) ∈ pre := by
  induction fs generalizing s with
  | nil => exact ⟨[], rfl, by simp⟩
  | cons f rest ih =>
    obtain ⟨p1, hp1, hm1⟩ := forwardFile_suffix w cfg channel header preview f s
    obtain ⟨p2, hp2, hm2⟩ := ih (forwardFile w cfg channel header preview f s)
    refine ⟨p2 ++ p1, by simp only [forwardFiles, hp2, hp1, List.append_assoc], ?_⟩
    intro x hx hne
    rcases List.mem_cons.mp hx with rfl | hx
    · exact List.mem_append_right _ (hm1 hne)
    · exact List.mem_append_left _ (hm2 x hx hne)

theorem forwardFile_suppressed (w : World) (cfg : Config) (channel header preview : String)
    (f : SlackFile) (s : Store) :
    (forwardFile w cfg channel header preview f s).suppressedByChannel = s.suppressedByChannel := by
  simp only [forwardFile]
  split
  · rfl
  · split
    · rfl
    · split
      · rfl
      · split
        · simp [markDelivered]
        · rfl

theorem forwardFiles_suppressed (w : World) (cfg : Config) (channel header preview : String)
    (fs : List SlackFile) (s : Store) :
    (forwardFiles w cfg channel header preview fs s).suppressedByChannel = s.suppressedByChannel := by
  induction fs generalizing s with
  | nil => rfl
  | cons f rest ih => simp only [forwardFiles, ih, forwardFile_suppressed]

theorem gateMessage_expired_facts (w : World) (cfg : Config) (channel sender : String)
    (m : Message) (s : Store) :
    (gateMessage w cfg channel sender m false s).suppressedByChannel = s.suppressedByChannel ∧
    (jsTrim m.text ≠ "" → ∀ dest ∈ cfg.DEST_NUMBERS,
      Effect.waText dest (textBody (headerLine w sender m) (jsTrim m.text))
        ∈ (gateMessage w cfg channel sender m false s).trace) ∧
    (∀ f ∈ m.files, fileUrl f ≠ "" →
      Effect.download (fileUrl f) ∈ (gateMessage w cfg channel sender m false s).trace) := by
  by_cases ht : jsTrim m.text = ""
  · by_cases hf : m.files = []
    · have hg : gateMessage w cfg channel sender m false s = s := by
        simp [gateMessage, ht, hf]
      rw [hg]
      exact ⟨rfl, fun h => absurd ht h, fun f hm => by simp [hf] at hm⟩
    · have hg : gateMessage w cfg channel sender m false s
          = forwardFiles w cfg channel (headerLine w sender m) (jsTrim m.text) m.files s := by
        simp [gateMessage, ht, hf]
      obtain ⟨pre, hpre, hm⟩ := forwardFiles_suffix w cfg channel (headerLine w sender m)
        (jsTrim m.text) m.files s
      rw [hg]
      refine ⟨forwardFiles_suppressed _ _ _ _ _ _ _, fun h => absurd ht h, ?_⟩
      intro f hfm hne
      rw [hpre]
      exact List.mem_append_left _ (hm f hfm hne)
  · have h1 := forwardText_trace w cfg channel (headerLine w sender m) (jsTrim m.text) s
    by_cases hf : m.files = []
    · have hg : gateMessage w cfg channel sender m false s
          = forwardText w cfg channel (headerLine w sender m) (jsTrim m.text) s := by
        simp [gateMessage, ht, hf]
      rw [hg]
      exact ⟨forwardText_suppressed _ _ _ _ _ _, fun _ => h1, fun f hm => by simp [hf] at hm⟩
    · have hg : gateMessage w cfg channel sender m false s
          = forwardFiles w cfg channel (headerLine w sender m) (jsTrim m.text) m.files
              (forwardText w cfg channel (headerLine w sender m) (jsTrim m.text) s) := by
        simp [gateMessage, ht, hf]
      obtain ⟨pre, hpre, hm⟩ := forwardFiles_suffix w cfg channel (headerLine w sender m)
        (jsTrim m.text) m.files (forwardText w cfg channel (headerLine w sender m) (jsTrim m.text) s)
      rw [hg]
      refine ⟨by rw [forwardFiles_suppressed, forwardText_suppressed], ?_, ?_⟩
      · intro _ dest hd
        rw [hpre]
        exact List.mem_append_right _ (h1 dest hd)
      · intro f hfm hne
        rw [hpre]
        exact List.mem_append_left _ (hm f hfm hne)

theorem cooldownGate_within_facts (w : World) (cfg : Config) (channel sender : String)
    (m : Message) (s : Store)
    (hin : (w.clock (Effect.clock :: s.trace) : Int)
        - (((s.lastNotifyAtByChannel channel).getD 0 : Nat) : Int) < cfg.COOLDOWN_MS) :
    (cooldownGate w cfg channel sender m s).trace = Effect.clock :: s.trace ∧
    (cooldownGate w cfg channel sender m s).lastNotifyAtByChannel = s.lastNotifyAtByChannel ∧
    ((cooldownGate w cfg channel sender m s).suppressedByChannel channel).map Entry.stats
      = statsStep ((s.suppressedByChannel channel).map Entry.stats) m ∧
    (hasContent m = true →
      ∃ e, (cooldownGate w cfg channel sender m s).suppressedByChannel channel = some e ∧
        e.lastTs = m.ts) := by
  rw [cooldownGate_within w cfg channel sender m s hin]
  have hstats := gateMessage_within_stats w cfg channel sender m
    { s with trace := Effect.clock :: s.trace }
  refine ⟨gateMessage_within_trace _ _ _ _ _ _, (gateMessage_within_frame _ _ _ _ _ _).1,
    hstats, ?_⟩
  intro hc
  obtain ⟨c, f, a, hstep⟩ := statsStep_lastTs ((s.suppressedByChannel channel).map Entry.stats) m hc
  rw [hstep] at hstats
  cases he : (gateMessage w cfg channel sender m true
      { s with trace := Effect.clock :: s.trace }).suppressedByChannel channel with
  | none =>
    rw [he] at hstats
    exact Option.noConfusion hstats
  | some e =>
    rw [he, Option.map_some', Option.some.injEq] at hstats
    simp only [Entry.stats, Prod.mk.injEq] at hstats
    exact ⟨e, rfl, hstats.2.2.2⟩

theorem cooldownGate_expired_facts (w : World) (cfg : Config) (channel sender : String)
    (m : Message) (s : Store)
    (hexp : ¬ ((w.clock (Effect.clock :: s.trace) : Int)
        - (((s.lastNotifyAtByChannel channel).getD 0 : Nat) : Int) < cfg.COOLDOWN_MS)) :
    (cooldownGate w cfg channel sender m s).suppressedByChannel = s.suppressedByChannel ∧
    (jsTrim m.text ≠ "" → ∀ dest ∈ cfg.DEST_NUMBERS,
      Effect.waText dest (textBody (headerLine w sender m) (jsTrim m.text))
        ∈ (cooldownGate w cfg channel sender m s).trace) ∧
    (∀ f ∈ m.files, fileUrl f ≠ "" →
      Effect.download (fileUrl f) ∈ (cooldownGate w cfg channel sender m s).trace) := by
  rw [cooldownGate_expired w cfg channel sender m s hexp]
  exact gateMessage_expired_facts w cfg channel sender m { s with trace := Effect.clock :: s.trace }

theorem cooldownGate_single_text (w : World) (cfg : Config) (channel sender : String)
    (m : Message) (s : Store) (ht : jsTrim m.text ≠ "") (hf : m.files = [])
    (hexp : ¬ ((w.clock (Effect.clock :: s.trace) : Int)
        - (((s.lastNotifyAtByChannel channel).getD 0 : Nat) : Int) < cfg.COOLDOWN_MS))
    (hok : (textOutcomes w "WA texto falhou" (textBody (headerLine w sender m) (jsTrim m.text))
        cfg.DEST_NUMBERS (Effect.clock :: s.trace)).any id = true) :
    (cooldownGate w cfg channel sender m s).trace
        = Effect.clock :: (sendTextAll w "WA texto falhou"
            (textBody (headerLine w sender m) (jsTrim m.text)) cfg.DEST_NUMBERS false
            (Effect.clock :: s.trace)).2 ∧
    (cooldownGate w cfg channel sender m s).lastNotifyAtByChannel channel
        = some (w.clock (cooldownGate w cfg channel sender m s).trace) := by
  have hfst := sendTextAll_fst w "WA texto falhou"
    (textBody (headerLine w sender m) (jsTrim m.text)) cfg.DEST_NUMBERS false
    (Effect.clock :: s.trace)
  rw [hok] at hfst
  rw [cooldownGate_text_expired w cfg channel sender m s ht hf hexp]
  simp [forwardText, hfst, markDelivered]

theorem cooldownGate_single_file (w : World) (cfg : Config) (channel sender : String)
    (m : Message) (s : Store) (f : SlackFile) (res : Download)
    (ht : jsTrim m.text = "") (hf : m.files = [f]) (hurl : fileUrl f ≠ "")
    (hexp : ¬ ((w.clock (Effect.clock :: s.trace) : Int)
        - (((s.lastNotifyAtByChannel channel).getD 0 : Nat) : Int) < cfg.COOLDOWN_MS))
    (hd : w.download (Effect.download (fileUrl f) :: Effect.clock :: s.trace) = .ok res)
    (hres : res.ok = true)
    (hok : (mediaOutcomes w (mediaCaption (headerLine w sender m) (jsTrim m.text)) res.bytes
        (fileName f) (fileMime f) cfg.DEST_NUMBERS
        (Effect.download (fileUrl f) :: Effect.clock :: s.trace)).any id = true) :
    (cooldownGate w cfg channel sender m s).trace
        = Effect.clock :: (sendMediaAll w (mediaCaption (headerLine w sender m) (jsTrim m.text))
            res.bytes (fileName f) (fileMime f) cfg.DEST_NUMBERS false
            (Effect.download (fileUrl f) :: Effect.clock :: s.trace)).2 ∧
    (cooldownGate w cfg channel sender m s).lastNotifyAtByChannel channel
        = some (w.clock (cooldownGate w cfg channel sender m s).trace) := by
  have hfst := sendMediaAll_fst w (mediaCaption (headerLine w sender m) (jsTrim m.text)) res.bytes
    (fileName f) (fileMime f) cfg.DEST_NUMBERS false
    (Effect.download (fileUrl f) :: Effect.clock :: s.trace)
  rw [hok] at hfst
  rw [ht] at hfst
  rw [cooldownGate_expired w cfg channel sender m s hexp]
  simp [gateMessage, ht, hf, forwardFiles, forwardFile, hurl, hd, hres, hfst, markDelivered]

/-- C3 (amended): the first message carries one payload (non-blank text and
no attachment, or blank text and one attachment), reaches the gate with the
cooldown expired and is delivered to some address.  Then its gate run is that
one fan-out followed by the clock read `t1` that becomes the conversation's
last-notification time.  For any second message, whatever its text and
attachments, and any later store still carrying `t1`: if it reaches the gate
less than `COOLDOWN_MS` after `t1`, nothing is sent (the trace only gains the
clock read), the last-notification times are untouched and the message is
recorded in the suppression record (one `recordSuppressed` call per part, so
a message with content leaves a record whose `lastTs` is its timestamp); if it
reaches the gate at least `COOLDOWN_MS` after `t1`, nothing is recorded, its
non-blank text is sent to every address and every attachment with a URL is
downloaded for delivery. -/
theorem cooldown_exclusivity (w : World) (cfg : Config) (channel sender1 sender2 : String)
    (m1 m2 : Message) (s s2 : Store)
    (hexp : ¬ ((w.clock (Effect.clock :: s.trace) : Int)
        - (((s.lastNotifyAtByChannel channel).getD 0 : Nat) : Int) < cfg.COOLDOWN_MS))
    (hone :
      (jsTrim m1.text ≠ "" ∧ m1.files = [] ∧
        (textOutcomes w "WA texto falhou" (textBody (headerLine w sender1 m1) (jsTrim m1.text))
          cfg.DEST_NUMBERS (Effect.clock :: s.trace)).any id = true) ∨
      (jsTrim m1.text = "" ∧ ∃ f res, m1.files = [f] ∧ fileUrl f ≠ "" ∧
        w.download (Effect.download (fileUrl f) :: Effect.clock :: s.trace) = .ok res ∧
        res.ok = true ∧
        (mediaOutcomes w (mediaCaption (headerLine w sender1 m1) (jsTrim m1.text)) res.bytes
          (fileName f) (fileMime f) cfg.DEST_NUMBERS
          (Effect.download (fileUrl f) :: Effect.clock :: s.trace)).any id = true))
    (hs2 : s2.lastNotifyAtByChannel channel
        = (cooldownGate w cfg channel sender1 m1 s).lastNotifyAtByChannel channel) :
    ∃ t1 : Nat,
      (cooldownGate w cfg channel sender1 m1 s).lastNotifyAtByChannel channel = some t1 ∧
      t1 = w.clock (cooldownGate w cfg channel sender1 m1 s).trace ∧
      (jsTrim m1.text ≠ "" →
        (cooldownGate w cfg channel sender1 m1 s).trace
          = Effect.clock :: (sendTextAll w "WA texto falhou"
              (textBody (headerLine w sender1 m1) (jsTrim m1.text)) cfg.DEST_NUMBERS false
              (Effect.clock :: s.trace)).2 ∧
        ∀ dest ∈ cfg.DEST_NUMBERS,
          Effect.waText dest (textBody (headerLine w sender1 m1) (jsTrim m1.text))
            ∈ (cooldownGate w cfg channel sender1 m1 s).trace) ∧
      (∀ f res, jsTrim m1.text = "" → m1.files = [f] →
        w.download (Effect.download (fileUrl f) :: Effect.clock :: s.trace) = .ok res →
        (cooldownGate w cfg channel sender1 m1 s).trace
          = Effect.clock :: (sendMediaAll w (mediaCaption (headerLine w sender1 m1) (jsTrim m1.text))
              res.bytes (fileName f) (fileMime f) cfg.DEST_NUMBERS false
              (Effect.download (fileUrl f) :: Effect.clock :: s.trace)).2) ∧
      ((w.clock (Effect.clock :: s2.trace) : Int) - (t1 : Int) < cfg.COOLDOWN_MS →
        (cooldownGate w cfg channel sender2 m2 s2).trace = Effect.clock :: s2.trace ∧
        (cooldownGate w cfg channel sender2 m2 s2).lastNotifyAtByChannel
            = s2.lastNotifyAtByChannel ∧
        ((cooldownGate w cfg channel sender2 m2 s2).suppressedByChannel channel).map Entry.stats
            = statsStep ((s2.suppressedByChannel channel).map Entry.stats) m2 ∧
        (hasContent m2 = true →
          ∃ e, (cooldownGate w cfg channel sender2 m2 s2).suppressedByChannel channel = some e ∧
            e.lastTs = m2.ts)) ∧
      (¬ ((w.clock (Effect.clock :: s2.trace) : Int) - (t1 : Int) < cfg.COOLDOWN_MS) →
        cooldownGate w cfg channel sender2 m2 s2
            = gateMessage w cfg channel sender2 m2 false
                { s2 with trace := Effect.clock :: s2.trace } ∧
        (cooldownGate w cfg channel sender2 m2 s2).suppressedByChannel
            = s2.suppressedByChannel ∧
        (jsTrim m2.text ≠ "" → ∀ dest ∈ cfg.DEST_NUMBERS,
          Effect.waText dest (textBody (headerLine w sender2 m2) (jsTrim m2.text))
            ∈ (cooldownGate w cfg channel sender2 m2 s2).trace) ∧
        (∀ f ∈ m2.files, fileUrl f ≠ "" →
          Effect.download (fileUrl f) ∈ (cooldownGate w cfg channel sender2 m2 s2).trace)) := by
  have hfirst : (cooldownGate w cfg channel sender1 m1 s).lastNotifyAtByChannel channel
        = some (w.clock (cooldownGate w cfg channel sender1 m1 s).trace) ∧
      (jsTrim m1.text ≠ "" →
        (cooldownGate w cfg channel sender1 m1 s).trace
          = Effect.clock :: (sendTextAll w "WA texto falhou"
              (textBody (headerLine w sender1 m1) (jsTrim m1.text)) cfg.DEST_NUMBERS false
              (Effect.clock :: s.trace)).2 ∧
        ∀ dest ∈ cfg.DEST_NUMBERS,
          Effect.waText dest (textBody (headerLine w sender1 m1) (jsTrim m1.text))
            ∈ (cooldownGate w cfg channel sender1 m1 s).trace) ∧
      (∀ f res, jsTrim m1.text = "" → m1.files = [f] →
        w.download (Effect.download (fileUrl f) :: Effect.clock :: s.trace) = .ok res →
        (cooldownGate w cfg channel sender1 m1 s).trace
          = Effect.clock :: (sendMediaAll w (mediaCaption (headerLine w sender1 m1) (jsTrim m1.text))
              res.bytes (fileName f) (fileMime f) cfg.DEST_NUMBERS false
              (Effect.download (fileUrl f) :: Effect.clock :: s.trace)).2) := by
    rcases hone with ⟨ht, hf, hok⟩ | ⟨ht, f, res, hf, hurl, hd, hres, hok⟩
    · obtain ⟨htr, hst⟩ := cooldownGate_single_text w cfg channel sender1 m1 s ht hf hexp hok
      refine ⟨hst, fun _ => ⟨htr, ?_⟩, fun f res ht0 _ _ => absurd ht0 ht⟩
      exact (cooldownGate_expired_facts w cfg channel sender1 m1 s hexp).2.1 ht
    · obtain ⟨htr, hst⟩ := cooldownGate_single_file w cfg channel sender1 m1 s f res ht hf hurl
        hexp hd hres hok
      refine ⟨hst, fun hne => absurd ht hne, ?_⟩
      intro f2 res2 _ hf2 hd2
      have hff : f2 = f := by
        rw [hf] at hf2
        exact (List.head_eq_of_cons_eq hf2).symm
      subst hff
      have hrr : res2 = res := by
        rw [hd] at hd2
        exact (Except.ok.inj hd2).symm
      subst hrr
      exact htr
  obtain ⟨hstamp, htext, hfile⟩ := hfirst
  refine ⟨w.clock (cooldownGate w cfg channel sender1 m1 s).trace, hstamp, rfl, htext, hfile,
    ?_, ?_⟩
  · intro hin
    have hin2 : (w.clock (Effect.clock :: s2.trace) : Int)
        - (((s2.lastNotifyAtByChannel channel).getD 0 : Nat) : Int) < cfg.COOLDOWN_MS := by
      rw [hs2, hstamp]
      exact hin
    exact cooldownGate_within_facts w cfg channel sender2 m2 s2 hin2
  · intro hout
    have hout2 : ¬ ((w.clock (Effect.clock :: s2.trace) : Int)
        - (((s2.lastNotifyAtByChannel channel).getD 0 : Nat) : Int) < cfg.COOLDOWN_MS) := by
      rw [hs2, hstamp]
      exact hout
    exact ⟨cooldownGate_expired w cfg channel sender2 m2 s2 hout2,
      cooldownGate_expired_facts w cfg channel sender2 m2 s2 hout2⟩

/-- C3 witness: Ann's text is delivered after bootstrap; Bob's picture a few
milliseconds later is suppressed without any send and recorded. -/
theorem cooldown_exclusivity_witness :
    (cooldownGate quietWorld oneDest "D0CHAN" "Bob" bobFileMessage
        (cooldownGate quietWorld oneDest "D0CHAN" "Ann" annMessage freshStore)).trace
      = Effect.clock :: (cooldownGate quietWorld oneDest "D0CHAN" "Ann" annMessage freshStore).trace ∧
    ∃ e, (cooldownGate quietWorld oneDest "D0CHAN" "Bob" bobFileMessage
        (cooldownGate quietWorld oneDest "D0CHAN" "Ann" annMessage freshStore)).suppressedByChannel
          "D0CHAN" = some e ∧ e.lastTs = bobFileMessage.ts := by
  obtain ⟨t1, _, h2, _, _, hin, _⟩ := cooldown_exclusivity quietWorld oneDest "D0CHAN" "Ann" "Bob"
    annMessage bobFileMessage freshStore
    (cooldownGate quietWorld oneDest "D0CHAN" "Ann" annMessage freshStore)
    (by decide) (Or.inl ⟨by decide, rfl, by decide⟩) rfl
  have h := hin (by rw [h2]; decide)
  exact ⟨h.1, h.2.2.2 (by decide)⟩

/-! ## Dedup: each distinct message passes the gate once -/

theorem processMessage_gated (w : World) (cfg : Config) (channel : String) (m : Message)
    (s : Store) (h : Gated cfg channel s m) :
    (processMessage w cfg channel m s).2
      = cooldownGate w cfg channel (lookupSender w m (markSeen channel m.ts s)).1 m
          (lookupSender w m (markSeen channel m.ts s)).2 :=
  processMessage_of_gated w cfg channel m s h

theorem messageLoop_snd (w : World) (cfg : Config) (channel : String) (l : List Message)
    (nl nl2 : Nat) (s : Store) :
    (messageLoop w cfg channel l nl s).2 = (messageLoop w cfg channel l nl2 s).2 := by
  cases l <;> rfl

theorem messageLoop_filter_seen (w : World) (cfg : Config) (channel : String) (n : Nat) :
    ∀ (l : List Message), l.length ≤ n → ∀ (s : Store) (nl : Nat),
      (messageLoop w cfg channel l nl s).2
        = (messageLoop w cfg channel (l.filter (fun m => !s.seen channel m.ts)) nl s).2 := by
  induction n with
  | zero =>
    intro l hl s nl
    have : l = [] := List.length_eq_zero.mp (Nat.le_zero.mp hl)
    subst this
    rfl
  | succ k ih =>
    intro l hl s nl
    cases l with
    | nil => rfl
    | cons m rest =>
      have hrest : rest.length ≤ k := Nat.le_of_succ_le_succ hl
      cases hs : s.seen channel m.ts with
      | true =>
        have hm := processMessage_of_seen w cfg channel m s hs
        simp only [List.filter_cons, hs, Bool.not_true, Bool.false_eq_true, if_false]
        simp only [messageLoop, hm]
        rw [ih rest hrest s m.ts]
        exact messageLoop_snd _ _ _ _ _ _ _
      | false =>
        simp only [List.filter_cons, hs, Bool.not_false, if_true]
        simp only [messageLoop]
        have hflen : (rest.filter (fun x => !s.seen channel x.ts)).length ≤ k :=
          le_trans (List.length_filter_le _ _) hrest
        rw [ih rest hrest, ih (rest.filter (fun x => !s.seen channel x.ts)) hflen,
          List.filter_filter]
        congr 2
        apply List.filter_congr
        intro x _
        rw [processMessage_seen]
        cases s.seen channel x.ts <;> simp

/-- C2: a message that reaches the loop body unseen and gated passes the
cooldown gate exactly once, `processMessage` being that single gate call on
the store with the key marked; the gate records it when the cooldown is
running (nothing sent) and otherwise forwards it (text to every address,
attachments downloaded, nothing recorded).  A message whose key is already in
the seen set is skipped with no effect on the store at all, and after the
loop has run over a batch all its keys are in the seen set.  Hence the loop
run again over the same batch leaves the store as it is, and for overlapping
batches the second batch acts exactly like its messages that were neither in
the first batch nor seen before.  In a whole tick whose batch is entirely
seen, what follows the fetch is only the end-of-tick flush, the same as for
an empty batch. -/
theorem dedup_idempotence (w : World) (cfg : Config) (channel : String) (s : Store) :
    (∀ m, Gated cfg channel s m →
      (processMessage w cfg channel m s).2
        = cooldownGate w cfg channel (lookupSender w m (markSeen channel m.ts s)).1 m
            (lookupSender w m (markSeen channel m.ts s)).2) ∧
    (∀ sender m (s0 : Store),
      (w.clock (Effect.clock :: s0.trace) : Int)
          - (((s0.lastNotifyAtByChannel channel).getD 0 : Nat) : Int) < cfg.COOLDOWN_MS →
      (cooldownGate w cfg channel sender m s0).trace = Effect.clock :: s0.trace ∧
      ((cooldownGate w cfg channel sender m s0).suppressedByChannel channel).map Entry.stats
        = statsStep ((s0.suppressedByChannel channel).map Entry.stats) m ∧
      (hasContent m = true →
        ∃ e, (cooldownGate w cfg channel sender m s0).suppressedByChannel channel = some e ∧
          e.lastTs = m.ts)) ∧
    (∀ sender m (s0 : Store),
      ¬ ((w.clock (Effect.clock :: s0.trace) : Int)
          - (((s0.lastNotifyAtByChannel channel).getD 0 : Nat) : Int) < cfg.COOLDOWN_MS) →
      (cooldownGate w cfg channel sender m s0).suppressedByChannel = s0.suppressedByChannel ∧
      (jsTrim m.text ≠ "" → ∀ dest ∈ cfg.DEST_NUMBERS,
        Effect.waText dest (textBody (headerLine w sender m) (jsTrim m.text))
          ∈ (cooldownGate w cfg channel sender m s0).trace) ∧
      (∀ f ∈ m.files, fileUrl f ≠ "" →
        Effect.download (fileUrl f) ∈ (cooldownGate w cfg channel sender m s0).trace)) ∧
    (∀ m, s.seen channel m.ts = true → processMessage w cfg channel m s = (m.ts, s)) ∧
    (∀ batch nl, ∀ m ∈ batch, (messageLoop w cfg channel batch nl s).2.seen channel m.ts = true) ∧
    (∀ batch nl nl2,
      (messageLoop w cfg channel batch nl2 (messageLoop w cfg channel batch nl s).2).2
        = (messageLoop w cfg channel batch nl s).2) ∧
    (∀ batch1 batch2 nl nl2,
      (messageLoop w cfg channel batch2 nl2 (messageLoop w cfg channel batch1 nl s).2).2
        = (messageLoop w cfg channel
            (batch2.filter (fun m =>
              !(batch1.any (fun x => decide (m.ts = x.ts)) || s.seen channel m.ts)))
            nl2 (messageLoop w cfg channel batch1 nl s).2).2) ∧
    (∀ lastTs marks batch,
      w.history (Effect.history channel lastTs :: s.trace) = .ok batch →
      (∀ m ∈ batch, s.seen channel m.ts = true) →
      (pollChannel w cfg channel lastTs { lastTsByChannel := marks, store := s }).store
        = maybeSendCooldownSummary w cfg channel
            { s with trace := Effect.history channel lastTs :: s.trace }) := by
  refine ⟨fun m hm => processMessage_gated w cfg channel m s hm, ?_, ?_,
    fun m hm => processMessage_of_seen w cfg channel m s hm, ?_, ?_, ?_, ?_⟩
  · intro sender m s0 hin
    obtain ⟨h1, _, h3, h4⟩ := cooldownGate_within_facts w cfg channel sender m s0 hin
    exact ⟨h1, h3, h4⟩
  · intro sender m s0 hexp
    exact cooldownGate_expired_facts w cfg channel sender m s0 hexp
  · intro batch nl m hm
    rw [messageLoop_seen]
    have : batch.any (fun x => decide (m.ts = x.ts)) = true :=
      List.any_eq_true.mpr ⟨m, hm, by simp⟩
    simp [this]
  · intro batch nl nl2
    rw [messageLoop_of_seen]
    intro m hm
    rw [messageLoop_seen]
    have : batch.any (fun x => decide (m.ts = x.ts)) = true :=
      List.any_eq_true.mpr ⟨m, hm, by simp⟩
    simp [this]
  · intro batch1 batch2 nl nl2
    rw [messageLoop_filter_seen w cfg channel batch2.length batch2 (le_refl _)]
    congr 2
    apply List.filter_congr
    intro x _
    rw [messageLoop_seen]
    simp
  · intro lastTs marks batch hb hseen
    have hloop := messageLoop_of_seen w cfg channel (sortByTs batch) lastTs
      { s with trace := Effect.history channel lastTs :: s.trace }
      (fun m hm => hseen m ((mem_sortByTs m batch).mp hm))
    simp only [pollChannel, hb, hloop]
    split <;> rfl

/-- C2 witness: Ann's message, suppressed once when first seen, changes
nothing when the same batch is looped over again. -/
theorem dedup_idempotence_witness :
    (messageLoop flushWorld oneDest "D0CHAN" [annMessage] 7
        (messageLoop flushWorld oneDest "D0CHAN" [annMessage] 0 coolingState.store).2).2
      = (messageLoop flushWorld oneDest "D0CHAN" [annMessage] 0 coolingState.store).2 ∧
    ((messageLoop flushWorld oneDest "D0CHAN" [annMessage] 0
        coolingState.store).2.suppressedByChannel "D0CHAN").map Entry.stats
      = some (1, 0, 1700000000000100, 1700000000000100) :=
  ⟨(dedup_idempotence flushWorld oneDest "D0CHAN" coolingState.store).2.2.2.2.2.1 [annMessage] 0 7,
   by decide⟩

/-! ## Suppression runs over several ticks -/

theorem processMessage_suppressed (w : World) (cfg : Config) (channel : String) (m : Message)
    (s : Store) (h : Gated cfg channel s m)
    (hin : (withinCooldown w cfg channel (lookupSender w m (markSeen channel m.ts s)).2).1 = true) :
    ((processMessage w cfg channel m s).2.suppressedByChannel channel).map Entry.stats
      = statsStep ((s.suppressedByChannel channel).map Entry.stats) m := by
  rw [processMessage_gated w cfg channel m s h]
  obtain ⟨_, _, f3⟩ := lookupSender_frame w m (markSeen channel m.ts s)
  simp only [cooldownGate, hin]
  rw [gateMessage_within_stats]
  show statsStep (((lookupSender w m (markSeen channel m.ts s)).2.suppressedByChannel channel).map
    Entry.stats) m = _
  rw [f3]
  rfl

theorem suppressedRun_stats (w : World) (cfg : Config) (channel : String) (ms : List Message)
    (s : Store) (hrun : SuppressedRun w cfg channel ms s) :
    (s.suppressedByChannel channel).map Entry.stats = ms.foldl statsStep none := by
  induction hrun with
  | start h => rw [h]; rfl
  | suppress _ hg hin ih =>
    rw [processMessage_suppressed w cfg channel _ _ hg hin, ih, List.foldl_append]
    rfl
  | other _ h ih => rw [h, ih]

/-- C4 (amended): let the store be reached by a run that starts without a
suppression record for the conversation and suppresses the messages `ms` in
order, over any number of ticks, none of them carrying both non-blank text and
attachments.  If some message has content, the record then holds as count the
number of messages with content (non-blank text or attachments), as files the
total number of attachments, as first and last timestamps those of the first
and the last such message; the digest built from it reports exactly these
(the attachment clause only when the total is not zero), and when the flush
is due at that store `maybeSendCooldownSummary` sends this digest to every
address. -/
theorem summary_accuracy (w : World) (cfg : Config) (channel : String) (ms : List Message)
    (s : Store) (hrun : SuppressedRun w cfg channel ms s)
    (hx : ∀ m ∈ ms, jsTrim m.text = "" ∨ m.files = [])
    (first : Message) (hfirst : (ms.filter hasContent).head? = some first) :
    ∃ e last, s.suppressedByChannel channel = some e ∧
      (ms.filter hasContent).getLast? = some last ∧
      e.count = (ms.filter hasContent).length ∧
      e.files = attachmentCount ms ∧
      e.firstTs = first.ts ∧
      e.lastTs = last.ts ∧
      summaryBody w e
        = jsSlice ("🔔 Resumo Slack: " ++ toString (ms.filter hasContent).length ++
            " nova(s) mensagem(ns)" ++
            (if attachmentCount ms ≠ 0 then ", " ++ toString (attachmentCount ms) ++ " anexo(s)"
             else "") ++
            " entre " ++ w.tsToLocale first.ts ++ " e " ++ w.tsToLocale last.ts ++ "." ++
            (if e.lastPreview ≠ "" then
               "\nÚltima: " ++ e.lastSender ++ ": " ++ jsSlice e.lastPreview 300
             else "")) 1000 ∧
      (cfg.COOLDOWN_SUMMARY = true →
        ¬ ((w.clock (Effect.clock :: s.trace) : Int)
            - (((s.lastNotifyAtByChannel channel).getD 0 : Nat) : Int) < cfg.COOLDOWN_MS) →
        ∀ dest ∈ cfg.DEST_NUMBERS,
          Effect.waText dest (summaryBody w e) ∈ (maybeSendCooldownSummary w cfg channel s).trace) := by
  have hloop := suppressedRun_stats w cfg channel ms s hrun
  rw [foldl_statsStep_none ms hx, hfirst, Option.map_some'] at hloop
  have hne : ms.filter hasContent ≠ [] := by
    intro h
    rw [h] at hfirst
    exact Option.noConfusion hfirst
  obtain ⟨last, hlast⟩ : ∃ last, (ms.filter hasContent).getLast? = some last :=
    ⟨_, List.getLast?_eq_getLast _ hne⟩
  rw [hlast] at hloop
  cases he : s.suppressedByChannel channel with
  | none =>
    rw [he] at hloop
    exact Option.noConfusion hloop
  | some e =>
    rw [he, Option.map_some', Option.some.injEq] at hloop
    simp only [Entry.stats, Option.map_some', Option.getD_some, Prod.mk.injEq] at hloop
    obtain ⟨h1, h2, h3, h4⟩ := hloop
    refine ⟨e, last, rfl, hlast, h1, h2, h3, h4, ?_, ?_⟩
    · simp only [summaryBody, h1, h2, h3, h4]
    · intro hc hge
      exact maybeSendCooldownSummary_trace w cfg channel s e he hc hge

/-- The two ticks of `twoTickWorld` suppress Ann's text and then Bob's
picture. -/
theorem twoTick_run : SuppressedRun twoTickWorld oneDest "D0CHAN" [annMessage, bobFileMessage]
    thirdTickStore := by
  have h0 : SuppressedRun twoTickWorld oneDest "D0CHAN" []
      { coolingState.store with trace := [Effect.history "D0CHAN" 1700000000000000] } :=
    SuppressedRun.start rfl
  have h1 := SuppressedRun.suppress (m := annMessage) h0
    ⟨rfl, by decide, Or.inr (Or.inr (by decide))⟩ (by decide)
  have h2 : SuppressedRun twoTickWorld oneDest "D0CHAN" ([] ++ [annMessage])
      { (pollOnce twoTickWorld oneDest coolingState).store with
        trace := Effect.history "D0CHAN" 1700000000000100
          :: (pollOnce twoTickWorld oneDest coolingState).store.trace } :=
    SuppressedRun.other h1 (by decide)
  have h3 := SuppressedRun.suppress (m := bobFileMessage) h2
    ⟨by decide, by decide, Or.inr (Or.inr (by decide))⟩ (by decide)
  exact SuppressedRun.other h3 (by decide)

/-- C4 witness: a window over two ticks, Ann's text suppressed in the first
and Bob's picture in the second; in the third tick the digest reports two
messages, one attachment, from Ann's timestamp to Bob's, and is sent. -/
theorem summary_accuracy_witness :
    ∃ e, thirdTickStore.suppressedByChannel "D0CHAN" = some e ∧
      e.count = 2 ∧ e.files = 1 ∧ e.firstTs = 1700000000000100 ∧ e.lastTs = 1700000000000200 ∧
      Effect.waText "5511999990001" (summaryBody twoTickWorld e)
        ∈ (maybeSendCooldownSummary twoTickWorld oneDest "D0CHAN" thirdTickStore).trace := by
  obtain ⟨e, last, h0, hl, h1, h2, h3, h4, _, hflush⟩ :=
    summary_accuracy twoTickWorld oneDest "D0CHAN" [annMessage, bobFileMessage] thirdTickStore
      twoTick_run
      (by
        intro m hm
        simp only [List.mem_cons, List.mem_singleton, List.not_mem_nil, or_false] at hm
        rcases hm with rfl | rfl
        · exact Or.inr rfl
        · exact Or.inl (by decide))
      annMessage (by decide)
  have hfilter : ([annMessage, bobFileMessage].filter hasContent).getLast? = some bobFileMessage := by
    decide
  have hlast : last = bobFileMessage := Option.some.inj (hl.symm.trans hfilter)
  exact ⟨e, h0, h1.trans (by decide), h2.trans (by decide), h3, by rw [h4, hlast]; rfl,
    hflush rfl (by decide) "5511999990001" (by decide)⟩

end SlackBridge
